import Mathlib

/-!
Verification of the polling application's vote-submission path, database
triggers, middleware (rate limiting and CSRF), poll-listing cache and poll
CRUD handlers, embedded shallowly from the TypeScript route handlers
(src/app/api/votes/route.ts, src/app/api/polls/route.ts and the poll-by-id
handlers), the SQL schema (tables polls, poll_options, votes and the
vote-count trigger) and the stored procedure in
src/performance_optimizations.sql.

Identifiers (uuids in the source) are abstracted as naturals; timestamps as
naturals (milliseconds); strings that only flow through checks are kept as
lists of characters so that everything evaluates by kernel reduction.
-/

namespace PollApp

/-- Database row of the polls table (schema: id, title, description,
creator_id, is_public, allow_multiple_votes, expires_at; created_at is
never read by the modelled code and is omitted). -/
structure Poll where
  id : Nat
  title : List Char
  description : Option (List Char)
  creator_id : Nat
  is_public : Bool
  allow_multiple_votes : Bool
  expires_at : Option Nat
deriving DecidableEq

/-- Database row of the poll_options table (schema: id, poll_id, text,
vote_count INTEGER DEFAULT 0, order_index INTEGER DEFAULT 0). -/
structure PollOption where
  id : Nat
  poll_id : Nat
  text : List Char
  vote_count : Int
  order_index : Nat
deriving DecidableEq

/-- Database row of the votes table (schema: id uuid surrogate key which no
modelled code path reads, poll_id, option_id, user_id, created_at; the
unused surrogate key and timestamp are omitted). The user_id column is
nullable only through ON DELETE SET NULL on profile deletion, an operation
no modelled handler performs, so it is kept non-null here. -/
structure Vote where
  poll_id : Nat
  option_id : Nat
  user_id : Nat
deriving DecidableEq

/-- Database row of the profiles table (id, email, display_name;
created_at unused). -/
structure Profile where
  id : Nat
  email : List Char
  display_name : Option (List Char)
deriving DecidableEq

/-- The database state: the four tables of the schema. -/
structure DB where
  profiles : List Profile
  polls : List Poll
  poll_options : List PollOption
  votes : List Vote
deriving DecidableEq

/-- The empty database. -/
def DB.init : DB := ⟨[], [], [], []⟩

/-- PostgREST single(): succeeds exactly when the result set has exactly
one row, returning it; otherwise the data is null. -/
def selectSingle {α : Type} : List α → Option α
  | [x] => some x
  | _ => none

/-- Trigger update_vote_counts on INSERT (performance_optimizations.sql):
UPDATE poll_options SET vote_count = vote_count + 1 WHERE id = NEW.option_id. -/
def update_vote_counts_ins (options : List PollOption) (oid : Nat) : List PollOption :=
  options.map (fun o => if o.id == oid then { o with vote_count := o.vote_count + 1 } else o)

/-- Trigger update_vote_counts on DELETE (performance_optimizations.sql):
UPDATE poll_options SET vote_count = vote_count - 1 WHERE id = OLD.option_id. -/
def update_vote_counts_del (options : List PollOption) (oid : Nat) : List PollOption :=
  options.map (fun o => if o.id == oid then { o with vote_count := o.vote_count - 1 } else o)

/-- Trigger update_vote_counts on DELETE, schema variant (jest.types.d.ts
schema dump): SET vote_count = GREATEST(vote_count - 1, 0). -/
def update_vote_counts_del_greatest (options : List PollOption) (oid : Nat) : List PollOption :=
  options.map (fun o => if o.id == oid then { o with vote_count := max (o.vote_count - 1) 0 } else o)

/-- A single row insert into votes together with the AFTER INSERT trigger. -/
def insertVoteRow (db : DB) (v : Vote) : DB :=
  { db with
    votes := db.votes ++ [v]
    poll_options := update_vote_counts_ins db.poll_options v.option_id }

/-- Constraints checked by the database on a votes insert: the
UNIQUE(poll_id, user_id) constraint and the two foreign keys. -/
def violatesVoteConstraints (db : DB) (v : Vote) : Bool :=
  db.votes.any (fun w => w.poll_id == v.poll_id && w.user_id == v.user_id)
  || !(db.polls.any (fun p => p.id == v.poll_id))
  || !(db.poll_options.any (fun o => o.id == v.option_id))

/-- Multi-row INSERT INTO votes: rows are inserted in order, each firing
the vote-count trigger; any constraint violation aborts the whole
statement (the caller keeps the original state on none). -/
def insertVotes (db : DB) : List Vote → Option DB
  | [] => some db
  | v :: vs =>
    if violatesVoteConstraints db v then none
    else insertVotes (insertVoteRow db v) vs

/-- Request body of POST /api/votes after JSON parsing. -/
structure VoteBody where
  poll_id : Nat
  option_ids : List Nat
deriving DecidableEq

/-- voteSchema (lib/validations/polls.ts): poll_id and each option id must
be uuids (absorbed into the id type) and at least one option must be
selected. -/
def voteSchemaOk (b : VoteBody) : Bool :=
  decide (1 ≤ b.option_ids.length)

/-- Outcome of POST /api/votes, one constructor per return site of the
handler (HTTP statuses 401, 400, 404, 400, 400, 400, 400, 500, 201). -/
inductive VoteOutcome where
  | unauthorized
  | invalidData
  | pollNotFound
  | pollExpired
  | alreadyVoted
  | invalidOptions
  | singleChoiceOnly
  | insertFailed
  | voteRecorded
deriving DecidableEq

/-- Expiry test of the handler: poll.expires_at is set and strictly in the
past (new Date(poll.expires_at) < new Date()). -/
def pollExpiredAt (p : Poll) (now : Nat) : Bool :=
  match p.expires_at with
  | some t => decide (t < now)
  | none => false

/-- POST /api/votes (src/app/api/votes/route.ts): authenticate, validate
the body, look up the poll among public polls, reject expired polls,
reject a second vote by the same user, check every submitted option id
belongs to the poll, enforce the single-choice rule, then insert one vote
row per option id. Returns the outcome and the resulting database. -/
def votesPOST (db : DB) (now : Nat) (user : Option Nat) (body : Option VoteBody) :
    VoteOutcome × DB :=
  match user with
  | none => (.unauthorized, db)
  | some uid =>
    match body with
    | none => (.invalidData, db)
    | some b =>
      if !voteSchemaOk b then (.invalidData, db)
      else
        match selectSingle (db.polls.filter (fun p => p.id == b.poll_id && p.is_public)) with
        | none => (.pollNotFound, db)
        | some poll =>
          if pollExpiredAt poll now then (.pollExpired, db)
          else if (selectSingle (db.votes.filter
              (fun v => v.poll_id == b.poll_id && v.user_id == uid))).isSome then
            (.alreadyVoted, db)
          else
            let validOptions := db.poll_options.filter
              (fun o => o.poll_id == b.poll_id && b.option_ids.contains o.id)
            if validOptions.length != b.option_ids.length then (.invalidOptions, db)
            else if !poll.allow_multiple_votes && decide (1 < b.option_ids.length) then
              (.singleChoiceOnly, db)
            else
              let votesToInsert := b.option_ids.map
                (fun oid => { poll_id := b.poll_id, option_id := oid, user_id := uid : Vote })
              match insertVotes db votesToInsert with
              | none => (.insertFailed, db)
              | some db2 => (.voteRecorded, db2)

/-- Modelled from the spec: the vote-submission pipeline in the order the
claim states it (validate, poll public and not expired, option membership,
single-vs-multiple rule, second-vote prevention, record), with the same
checks as the handler but the second-vote check after the option checks. -/
def specVotePipeline (db : DB) (now : Nat) (user : Option Nat) (body : Option VoteBody) :
    VoteOutcome × DB :=
  match user with
  | none => (.unauthorized, db)
  | some uid =>
    match body with
    | none => (.invalidData, db)
    | some b =>
      if !voteSchemaOk b then (.invalidData, db)
      else
        match selectSingle (db.polls.filter (fun p => p.id == b.poll_id && p.is_public)) with
        | none => (.pollNotFound, db)
        | some poll =>
          if pollExpiredAt poll now then (.pollExpired, db)
          else
            let validOptions := db.poll_options.filter
              (fun o => o.poll_id == b.poll_id && b.option_ids.contains o.id)
            if validOptions.length != b.option_ids.length then (.invalidOptions, db)
            else if !poll.allow_multiple_votes && decide (1 < b.option_ids.length) then
              (.singleChoiceOnly, db)
            else if (selectSingle (db.votes.filter
                (fun v => v.poll_id == b.poll_id && v.user_id == uid))).isSome then
              (.alreadyVoted, db)
            else
              let votesToInsert := b.option_ids.map
                (fun oid => { poll_id := b.poll_id, option_id := oid, user_id := uid : Vote })
              match insertVotes db votesToInsert with
              | none => (.insertFailed, db)
              | some db2 => (.voteRecorded, db2)

/-- Modelled from the spec: the same pipeline with the second-vote check
moved to where the handler performs it, before the option checks. -/
def specVotePipelineFixed (db : DB) (now : Nat) (user : Option Nat) (body : Option VoteBody) :
    VoteOutcome × DB :=
  match user with
  | none => (.unauthorized, db)
  | some uid =>
    match body with
    | none => (.invalidData, db)
    | some b =>
      if !voteSchemaOk b then (.invalidData, db)
      else
        match selectSingle (db.polls.filter (fun p => p.id == b.poll_id && p.is_public)) with
        | none => (.pollNotFound, db)
        | some poll =>
          if pollExpiredAt poll now then (.pollExpired, db)
          else if (selectSingle (db.votes.filter
              (fun v => v.poll_id == b.poll_id && v.user_id == uid))).isSome then
            (.alreadyVoted, db)
          else
            let validOptions := db.poll_options.filter
              (fun o => o.poll_id == b.poll_id && b.option_ids.contains o.id)
            if validOptions.length != b.option_ids.length then (.invalidOptions, db)
            else if !poll.allow_multiple_votes && decide (1 < b.option_ids.length) then
              (.singleChoiceOnly, db)
            else
              let votesToInsert := b.option_ids.map
                (fun oid => { poll_id := b.poll_id, option_id := oid, user_id := uid : Vote })
              match insertVotes db votesToInsert with
              | none => (.insertFailed, db)
              | some db2 => (.voteRecorded, db2)

/-- Outcome of the stored procedure validate_and_record_vote
(src/performance_optimizations.sql), one constructor per RETURN site:
poll not found (404), expired (400), already voted (400), invalid option
(400), the single-choice rejection (400), the EXCEPTION WHEN OTHERS
status-500 return (caughtError), and the success return. The singleChoice
and ok sites exist in the source text but are unreachable: see
validate_and_record_vote. -/
inductive ProcOutcome where
  | notFound
  | expired
  | alreadyVoted
  | invalidOption
  | singleChoice
  | caughtError
  | ok
deriving DecidableEq

/-- Stored procedure validate_and_record_vote (performance_optimizations.sql):
look up the poll by id (SELECT * INTO takes the first matching row; no
is_public filter), reject expired polls, reject a second vote (LIMIT 1),
check each option id belongs to the poll. The next statement, the
single-choice IF, reads v_poll.is_multiple_choice - a column no polls
schema in the repository has (every schema and every other reader names
the flag allow_multiple_votes) - so evaluating its condition raises a
missing-record-field error in PL/pgSQL, the EXCEPTION WHEN OTHERS handler
catches it, and the procedure returns the status-500 JSONB with the
database untouched; the single-choice return, the votes insert and the
success return (source lines 46-67) are therefore unreachable. -/
def validate_and_record_vote (db : DB) (now : Nat) (p_poll_id p_user_id : Nat)
    (p_option_ids : List Nat) : ProcOutcome × DB :=
  match db.polls.find? (fun p => p.id == p_poll_id) with
  | none => (.notFound, db)
  | some v_poll =>
    if pollExpiredAt v_poll now then (.expired, db)
    else if db.votes.any (fun w => w.poll_id == p_poll_id && w.user_id == p_user_id) then
      (.alreadyVoted, db)
    else if !(p_option_ids.all (fun oid =>
        db.poll_options.any (fun o => o.id == oid && o.poll_id == p_poll_id))) then
      (.invalidOption, db)
    else
      (.caughtError, db)

/-- Shared error classification of the two vote-path implementations, as
the claim lists it. -/
inductive VoteClass where
  | notFound
  | expired
  | alreadyVoted
  | invalidOptions
  | singleChoice
  | insertError
  | accepted
deriving DecidableEq

/-- Classification of a route outcome; none for the authentication and
body-validation outcomes, which precede the part implemented twice. -/
def classOfOutcome : VoteOutcome → Option VoteClass
  | .unauthorized => none
  | .invalidData => none
  | .pollNotFound => some .notFound
  | .pollExpired => some .expired
  | .alreadyVoted => some .alreadyVoted
  | .invalidOptions => some .invalidOptions
  | .singleChoiceOnly => some .singleChoice
  | .insertFailed => some .insertError
  | .voteRecorded => some .accepted

/-- Classification of a stored-procedure outcome; the caught runtime
error is a status-500 result like the route's failed insert. -/
def classOfProc : ProcOutcome → VoteClass
  | .notFound => .notFound
  | .expired => .expired
  | .alreadyVoted => .alreadyVoted
  | .invalidOption => .invalidOptions
  | .singleChoice => .singleChoice
  | .caughtError => .insertError
  | .ok => .accepted

/-- Modelled from the spec: the equivalence claim as stated. For every
authenticated user, poll state and submitted option ids, the two
vote-path implementations accept the same requests, produce the same
database, and classify rejections identically. -/
def voteImplsEquivalentClaim : Prop :=
  ∀ (db : DB) (now uid : Nat) (b : VoteBody), 1 ≤ b.option_ids.length →
    classOfOutcome (votesPOST db now (some uid) (some b)).1
        = some (classOfProc (validate_and_record_vote db now b.poll_id uid b.option_ids).1)
      ∧ (votesPOST db now (some uid) (some b)).2
        = (validate_and_record_vote db now b.poll_id uid b.option_ids).2

/-- HTTP method of a request reaching the middleware. -/
inductive HMethod where
  | GET
  | HEAD
  | POST
  | PUT
  | DELETE
  | PATCH
deriving DecidableEq

/-- The middleware's mutation check:
['POST', 'PUT', 'DELETE', 'PATCH'].includes(request.method). -/
def isMutationMethod : HMethod → Bool
  | .POST => true
  | .PUT => true
  | .DELETE => true
  | .PATCH => true
  | _ => false

/-- A request as the middleware sees it: method, pathname, optional client
ip, the X-CSRF-Token header and the csrf_token cookie. -/
structure MwRequest where
  method : HMethod
  pathname : List Char
  ip : Option (List Char)
  csrfHeader : Option (List Char)
  csrfCookie : Option (List Char)
deriving DecidableEq

/-- Rate-limit store entry (middleware.ts RateLimitStore): requests
counted in the current window and the window's reset timestamp. -/
structure RateEntry where
  count : Nat
  resetAt : Nat
deriving DecidableEq

/-- The in-memory rate-limit store, keyed by the identifier string. -/
abbrev RateStore : Type := List (List Char × RateEntry)

/-- Rate-limit identifier: the template string ip:pathname, with 'unknown'
for a missing ip. -/
def identifierOf (req : MwRequest) : List Char :=
  (req.ip.getD ("unknown".data)) ++ (':' :: req.pathname)

/-- Store lookup. -/
def storeFind : RateStore → List Char → Option RateEntry
  | [], _ => none
  | kv :: t, k => if kv.1 == k then some kv.2 else storeFind t k

/-- Store update of every occurrence of a key. -/
def storeSet : RateStore → List Char → RateEntry → RateStore
  | [], _, _ => []
  | kv :: t, k, e => (if kv.1 == k then (kv.1, e) else kv) :: storeSet t k e

/-- Periodic store cleanup (middleware.ts setInterval body): delete every
entry whose resetAt is strictly in the past. -/
def cleanupStore (s : RateStore) (now : Nat) : RateStore :=
  s.filter (fun kv => !(decide (kv.2.resetAt < now)))

/-- RATE_LIMIT_WINDOW = 60 * 1000 milliseconds. -/
def RATE_LIMIT_WINDOW : Nat := 60 * 1000

/-- MAX_REQUESTS_PER_WINDOW = 20. -/
def MAX_REQUESTS_PER_WINDOW : Nat := 20

/-- Decision of the middleware on a request: pass it to the route handler,
reject it with 429, or reject it with 403. -/
inductive MwDecision where
  | pass
  | tooMany
  | forbidden
deriving DecidableEq

/-- The CSRF acceptance test of the middleware: both the X-CSRF-Token
header and the csrf_token cookie are present and equal (the middleware
rejects when !csrfToken || !csrfCookie || csrfToken !== csrfCookie). -/
def csrfOk (req : MwRequest) : Bool :=
  match req.csrfHeader, req.csrfCookie with
  | some h, some c => h == c
  | _, _ => false

/-- Rate-limit entry initialization (middleware.ts: initialize the entry
if it does not exist, with count 0 and resetAt one window ahead). -/
def rateLimitInit (store : RateStore) (k : List Char) (now : Nat) : RateStore :=
  match storeFind store k with
  | none => (k, { count := 0, resetAt := now + RATE_LIMIT_WINDOW }) :: store
  | some _ => store

/-- Rate-limit count increment (middleware.ts: rateLimitInfo.count++). -/
def rateLimitBump (store : RateStore) (k : List Char) : RateStore :=
  match storeFind store k with
  | some e => storeSet store k { e with count := e.count + 1 }
  | none => store

/-- The middleware (src/middleware.ts): non-mutation methods pass
untouched; mutation requests to /api/ paths are counted against the
rate-limit store and rejected with 429 once the incremented count exceeds
the maximum; /api/auth/ paths then pass; remaining /api/ paths are
rejected with 403 unless the CSRF header and cookie are present and
equal. Returns the decision and the updated store. -/
def middleware (store : RateStore) (now : Nat) (req : MwRequest) :
    MwDecision × RateStore :=
  if !isMutationMethod req.method then (.pass, store)
  else
    let isApi := List.isPrefixOf ("/api/".data) req.pathname
    let identifier := identifierOf req
    let store1 :=
      if isApi then rateLimitBump (rateLimitInit store identifier now) identifier
      else store
    let overLimit :=
      isApi &&
        (match storeFind store1 identifier with
         | some e => decide (MAX_REQUESTS_PER_WINDOW < e.count)
         | none => false)
    if overLimit then (.tooMany, store1)
    else if List.isPrefixOf ("/api/auth/".data) req.pathname then (.pass, store1)
    else if isApi && !csrfOk req then (.forbidden, store1)
    else (.pass, store1)

/-- A middleware run: fold the middleware over a list of timestamped
requests, collecting the decisions. -/
def mwRun (store : RateStore) : List (Nat × MwRequest) → List MwDecision × RateStore
  | [] => ([], store)
  | (t, req) :: rest =>
    let (d, store1) := middleware store t req
    let (ds, store2) := mwRun store1 rest
    (d :: ds, store2)

/-- Modelled from the spec: the rate-limiter claim as stated. For every
identifier (any method, any /api/ path), once more than 20 requests have
arrived within one 60-second window, every further request in that window
is rejected with 429; in particular the last of n > 20 identical
simultaneous requests is rejected. -/
def rateLimiterClaim : Prop :=
  ∀ (req : MwRequest) (t n : Nat),
    List.isPrefixOf ("/api/".data) req.pathname = true →
    MAX_REQUESTS_PER_WINDOW < n →
    (mwRun [] (List.replicate n (t, req))).1.getLast? = some .tooMany

/-- The count stored for a key, zero when the key is absent. -/
def countOf (store : RateStore) (k : List Char) : Nat :=
  match storeFind store k with
  | some e => e.count
  | none => 0

/-- The rate-limit count the middleware would charge a request against:
the stored count for its identifier (zero when absent) plus one. -/
def chargedCount (store : RateStore) (req : MwRequest) : Nat :=
  countOf store (identifierOf req) + 1

/-- Modelled from the spec: the CSRF claim as stated. Every mutation
request to an /api/ path outside /api/auth/ without matching CSRF header
and cookie is rejected with 403. -/
def csrfClaim : Prop :=
  ∀ (store : RateStore) (now : Nat) (req : MwRequest),
    isMutationMethod req.method = true →
    List.isPrefixOf ("/api/".data) req.pathname = true →
    List.isPrefixOf ("/api/auth/".data) req.pathname = false →
    csrfOk req = false →
    (middleware store now req).1 = .forbidden

/-- Poll payload returned by the poll-by-id GET handler and stored in its
cache: the poll row, its options and the computed total. -/
structure PollPayload where
  poll : Poll
  options : List PollOption
  total_votes : Int
deriving DecidableEq

/-- A poll-cache entry (timestamp and cached payload). -/
structure CacheEntry where
  timestamp : Nat
  data : PollPayload
deriving DecidableEq

/-- The in-memory poll cache, keyed by poll id. -/
abbrev PollCache : Type := List (Nat × CacheEntry)

/-- Cache lookup. -/
def cacheGet : PollCache → Nat → Option CacheEntry
  | [], _ => none
  | kv :: t, k => if kv.1 == k then some kv.2 else cacheGet t k

/-- Cache write: overwrite every occurrence of the key, or append it. -/
def cacheSet (c : PollCache) (k : Nat) (e : CacheEntry) : PollCache :=
  if (cacheGet c k).isSome then
    c.map (fun kv => if kv.1 == k then (kv.1, e) else kv)
  else c ++ [(k, e)]

/-- CACHE_TTL = 10 seconds. -/
def CACHE_TTL : Nat := 10

/-- Outcome of GET /api/polls/[id]: the payload served from the cache, the
payload served from a fresh database query, 401, or 404. -/
inductive GetPollResult where
  | cached (d : PollPayload)
  | fromDb (d : PollPayload)
  | unauthorized
  | notFound
deriving DecidableEq

/-- GET /api/polls/[id]: serve the cached payload when a cache entry
exists, is younger than the TTL and the authenticated user is the cached
poll's creator; otherwise reject unauthenticated requests with 401, then
query the poll (restricted to creator_id = user) with its options, compute
the total, sort options, cache the payload, and occasionally (the
cleanupDraw argument stands for the Math.random() < 0.1 draw) delete cache
entries older than twice the TTL. -/
def getPollById (db : DB) (cache : PollCache) (now : Nat) (user : Option Nat)
    (pollId : Nat) (cleanupDraw : Bool) : GetPollResult × PollCache :=
  let cachedData := cacheGet cache pollId
  let cacheHit :=
    match cachedData, user with
    | some e, some u => decide (now - e.timestamp < CACHE_TTL * 1000)
        && e.data.poll.creator_id == u
    | _, _ => false
  match cachedData, cacheHit with
  | some e, true => (.cached e.data, cache)
  | _, _ =>
    match user with
    | none => (.unauthorized, cache)
    | some u =>
      match selectSingle (db.polls.filter (fun p => p.id == pollId && p.creator_id == u)) with
      | none => (.notFound, cache)
      | some poll =>
        let opts := db.poll_options.filter (fun o => o.poll_id == pollId)
        let totalVotes := (opts.map (fun o => o.vote_count)).sum
        let sortedOptions := opts.mergeSort (fun a b => a.order_index ≤ b.order_index)
        let payload : PollPayload :=
          { poll := poll, options := sortedOptions, total_votes := totalVotes }
        let cache1 := cacheSet cache pollId { timestamp := now, data := payload }
        let cache2 :=
          if cleanupDraw then
            cache1.filter (fun kv => !(decide (kv.2.timestamp < now - CACHE_TTL * 2 * 1000)))
          else cache1
        (.fromDb payload, cache2)

/-- Modelled from the spec: the cache claim as stated. Every request is
answered either from the cache (under the freshness and ownership
conditions folded into getPollById) or by querying the database afresh (a
fromDb or notFound outcome); the only remaining outcome of the handler,
the 401 answered without a database query, never occurs. -/
def cacheClaim : Prop :=
  ∀ (db : DB) (cache : PollCache) (now : Nat) (user : Option Nat)
    (pollId : Nat) (draw : Bool),
    (getPollById db cache now user pollId draw).1 ≠ .unauthorized

/-- Request body of POST and PUT /api/polls after JSON parsing. -/
structure CreatePollBody where
  title : List Char
  description : Option (List Char)
  is_public : Bool
  allow_multiple_votes : Bool
  expires_at : Option Nat
  options : List (List Char)
deriving DecidableEq

/-- createPollSchema (lib/validations/polls.ts): title 3 to 200
characters, description at most 1000, expiry (when given) strictly in the
future, 2 to 10 options of 1 to 200 characters each. -/
def createPollSchemaOk (now : Nat) (b : CreatePollBody) : Bool :=
  decide (3 ≤ b.title.length) && decide (b.title.length ≤ 200)
  && (match b.description with
      | some d => decide (d.length ≤ 1000)
      | none => true)
  && (match b.expires_at with
      | some t => decide (now < t)
      | none => true)
  && decide (2 ≤ b.options.length) && decide (b.options.length ≤ 10)
  && b.options.all (fun o => decide (1 ≤ o.length) && decide (o.length ≤ 200))

/-- An authenticated user as the handlers see it: id, email and the
optional display_name from user_metadata. -/
structure AuthUser where
  id : Nat
  email : List Char
  display_name : Option (List Char)
deriving DecidableEq

/-- email.split at the first at-sign, first component (the handler's
user.email!.split at-sign, index 0). -/
def emailLocalPart (email : List Char) : List Char :=
  email.takeWhile (fun c => c != '@')

/-- Database statements a handler issues, recorded as a trace so that the
write pattern of a handler is observable. -/
inductive Stmt where
  | insertProfileS (uid : Nat)
  | insertPollS (pid : Nat)
  | insertOptionsS (pid : Nat)
  | deletePollS (pid : Nat)
  | updatePollS (pid : Nat)
  | deleteOptionsS (pid : Nat)
  | insertVotesS (pid : Nat)
deriving DecidableEq

/-- Insert a profile row, enforcing the primary key. -/
def insertProfile (db : DB) (p : Profile) : Option DB :=
  if db.profiles.any (fun q => q.id == p.id) then none
  else some { db with profiles := db.profiles ++ [p] }

/-- Insert a poll row, enforcing the primary key. -/
def insertPoll (db : DB) (p : Poll) : Option DB :=
  if db.polls.any (fun q => q.id == p.id) then none
  else some { db with polls := db.polls ++ [p] }

/-- Option rows a handler asks the database to insert: the id stands for
the uuid the database generates, vote_count takes its DEFAULT 0. -/
structure OptionRow where
  id : Nat
  poll_id : Nat
  text : List Char
  order_index : Nat
deriving DecidableEq

/-- Multi-row INSERT INTO poll_options: primary-key violations abort the
whole statement; each inserted row gets vote_count 0 from the column
default. -/
def insertOptions (db : DB) : List OptionRow → Option DB
  | [] => some db
  | r :: rs =>
    if db.poll_options.any (fun o => o.id == r.id) then none
    else
      insertOptions
        { db with poll_options := db.poll_options ++
            [{ id := r.id, poll_id := r.poll_id, text := r.text,
               vote_count := 0, order_index := r.order_index }] } rs

/-- DELETE FROM poll_options WHERE poll_id = pid, with the ON DELETE
CASCADE on votes.option_id removing every vote referencing a deleted
option and the AFTER DELETE trigger decrementing each deleted vote's
option counter among the surviving option rows. -/
def deleteOptionsCascade (db : DB) (pid : Nat) : DB :=
  let deadOptionIds := (db.poll_options.filter (fun o => o.poll_id == pid)).map (fun o => o.id)
  let deadVotes := db.votes.filter (fun v => deadOptionIds.contains v.option_id)
  let survivors := db.poll_options.filter (fun o => !(o.poll_id == pid))
  { db with
    poll_options := deadVotes.foldl (fun acc v => update_vote_counts_del acc v.option_id) survivors
    votes := db.votes.filter (fun v => !(deadOptionIds.contains v.option_id)) }

/-- DELETE FROM polls WHERE id = pid, with the cascades on poll_options
and votes and the vote-count trigger firing for each cascaded vote
deletion against the surviving option rows. -/
def deletePollCascade (db : DB) (pid : Nat) : DB :=
  let deadOptionIds := (db.poll_options.filter (fun o => o.poll_id == pid)).map (fun o => o.id)
  let deadVotes := db.votes.filter
    (fun v => v.poll_id == pid || deadOptionIds.contains v.option_id)
  let survivors := db.poll_options.filter (fun o => !(o.poll_id == pid))
  { db with
    polls := db.polls.filter (fun p => !(p.id == pid))
    poll_options := deadVotes.foldl (fun acc v => update_vote_counts_del acc v.option_id) survivors
    votes := db.votes.filter (fun v => !(v.poll_id == pid || deadOptionIds.contains v.option_id)) }

/-- Outcome of POST /api/polls, one constructor per return site. -/
inductive CreateOutcome where
  | unauthorized
  | profileError
  | invalidInput
  | pollInsertError
  | optionsInsertError
  | created
deriving DecidableEq

/-- Build the option rows of a poll from the body's option texts, pairing
them with database-generated ids and positional order_index values. -/
def mkOptionRows (pid : Nat) (ids : List Nat) (texts : List (List Char)) : List OptionRow :=
  (texts.zip ids).enum.map (fun p =>
    { id := p.2.2, poll_id := pid, text := p.2.1, order_index := p.1 })

/-- POST /api/polls (src/app/api/polls/route.ts): authenticate, create the
user's profile row when missing, validate the body, insert the poll row,
insert the option rows, and on an options-insert failure delete the
just-created poll again before reporting the error. The newPollId and
newOptionIds arguments stand for the uuids the database generates. Returns
the outcome, the resulting database, and the trace of issued mutation
statements. -/
def pollsPOST (db : DB) (now : Nat) (user : Option AuthUser) (body : Option CreatePollBody)
    (newPollId : Nat) (newOptionIds : List Nat) : CreateOutcome × DB × List Stmt :=
  match user with
  | none => (.unauthorized, db, [])
  | some u =>
    let existingProfile := selectSingle (db.profiles.filter (fun p => p.id == u.id))
    let profileStep : Option (DB × List Stmt) :=
      match existingProfile with
      | some _ => some (db, [])
      | none =>
        match insertProfile db
            { id := u.id, email := u.email,
              display_name := some (u.display_name.getD (emailLocalPart u.email)) } with
        | some db1 => some (db1, [.insertProfileS u.id])
        | none => none
    match profileStep with
    | none => (.profileError, db, [.insertProfileS u.id])
    | some (db1, tr1) =>
      match body with
      | none => (.invalidInput, db1, tr1)
      | some b =>
        if !createPollSchemaOk now b then (.invalidInput, db1, tr1)
        else
          let pollRow : Poll :=
            { id := newPollId, title := b.title, description := b.description,
              creator_id := u.id, is_public := b.is_public,
              allow_multiple_votes := b.allow_multiple_votes, expires_at := b.expires_at }
          match insertPoll db1 pollRow with
          | none => (.pollInsertError, db1, tr1 ++ [.insertPollS newPollId])
          | some db2 =>
            let tr2 := tr1 ++ [.insertPollS newPollId]
            match insertOptions db2 (mkOptionRows newPollId newOptionIds b.options) with
            | none =>
              (.optionsInsertError, deletePollCascade db2 newPollId,
                tr2 ++ [.insertOptionsS newPollId, .deletePollS newPollId])
            | some db3 =>
              (.created, db3, tr2 ++ [.insertOptionsS newPollId])

/-- Modelled from the spec: the atomicity claim as stated. No handler
performs a compensating cleanup write: the trace of POST /api/polls never
contains a poll deletion. -/
def noCompensatingCleanupClaim : Prop :=
  ∀ (db : DB) (now : Nat) (user : Option AuthUser) (body : Option CreatePollBody)
    (newPollId : Nat) (newOptionIds : List Nat) (pid : Nat),
    Stmt.deletePollS pid ∉ (pollsPOST db now user body newPollId newOptionIds).2.2

/-- Outcome of PUT /api/polls/[id], one constructor per return site. -/
inductive PutOutcome where
  | unauthorized
  | invalidInput
  | notFound
  | optionsError
  | updated (d : PollPayload)
deriving DecidableEq

/-- UPDATE polls SET ... WHERE id = pid AND creator_id = uid. -/
def updatePollMeta (db : DB) (pid uid : Nat) (b : CreatePollBody) : DB :=
  { db with
    polls := db.polls.map (fun p =>
      if p.id == pid && p.creator_id == uid then
        { p with
          title := b.title
          description := b.description
          is_public := b.is_public
          allow_multiple_votes := b.allow_multiple_votes
          expires_at := b.expires_at }
      else p) }

/-- PUT /api/polls/[id] (poll-by-id handler): authenticate, validate the
body, check the poll exists and the user owns it, update the poll's
metadata, delete all existing poll_options rows (cascading to their
votes), insert a freshly built option list, and answer with the updated
poll reporting total_votes = 0. -/
def pollsPUT (db : DB) (now : Nat) (user : Option Nat) (pollId : Nat)
    (body : Option CreatePollBody) (newOptionIds : List Nat) : PutOutcome × DB :=
  match user with
  | none => (.unauthorized, db)
  | some uid =>
    match body with
    | none => (.invalidInput, db)
    | some b =>
      if !createPollSchemaOk now b then (.invalidInput, db)
      else
        match selectSingle (db.polls.filter (fun p => p.id == pollId && p.creator_id == uid)) with
        | none => (.notFound, db)
        | some _ =>
          let db1 := updatePollMeta db pollId uid b
          match selectSingle (db1.polls.filter (fun p => p.id == pollId && p.creator_id == uid)) with
          | none => (.notFound, db1)
          | some updatedPoll =>
            let db2 := deleteOptionsCascade db1 pollId
            match insertOptions db2 (mkOptionRows pollId newOptionIds b.options) with
            | none => (.optionsError, db2)
            | some db3 =>
              let newOptions := db3.poll_options.filter (fun o => o.poll_id == pollId)
              (.updated { poll := updatedPoll, options := newOptions, total_votes := 0 }, db3)

/-- DELETE /api/polls/[id]: authenticate, check ownership, delete the poll
with its cascades. -/
def pollsDELETE (db : DB) (user : Option Nat) (pollId : Nat) : Bool × DB :=
  match user with
  | none => (false, db)
  | some uid =>
    match selectSingle (db.polls.filter (fun p => p.id == pollId && p.creator_id == uid)) with
    | none => (false, db)
    | some _ => (true, deletePollCascade db pollId)

/-- The application-level events that mutate the database: the four
handlers and the stored procedure. -/
inductive Event where
  | create (now : Nat) (user : Option AuthUser) (body : Option CreatePollBody)
      (newPollId : Nat) (newOptionIds : List Nat)
  | vote (now : Nat) (user : Option Nat) (body : Option VoteBody)
  | procVote (now : Nat) (pid uid : Nat) (oids : List Nat)
  | put (now : Nat) (user : Option Nat) (pollId : Nat) (body : Option CreatePollBody)
      (newOptionIds : List Nat)
  | drop (user : Option Nat) (pollId : Nat)

/-- One application step: the database after the event's handler ran. -/
def stepEvent (db : DB) : Event → DB
  | .create now user body pid oids => (pollsPOST db now user body pid oids).2.1
  | .vote now user body => (votesPOST db now user body).2
  | .procVote now pid uid oids => (validate_and_record_vote db now pid uid oids).2
  | .put now user pollId body oids => (pollsPUT db now user pollId body oids).2
  | .drop user pollId => (pollsDELETE db user pollId).2

/-- A database state reached from the empty database by a sequence of
application events. -/
def runEvents (events : List Event) : DB :=
  events.foldl stepEvent DB.init

/-- The denormalized-counter invariant: every option row's vote_count
equals the number of vote rows referencing it, and every vote row
references an existing option row. -/
def CountInv (db : DB) : Prop :=
  (∀ o ∈ db.poll_options,
    o.vote_count = ((db.votes.filter (fun v => v.option_id == o.id)).length : Int))
  ∧ (∀ v ∈ db.votes, ∃ o ∈ db.poll_options, o.id = v.option_id)

/-! Concrete fixtures used by counterexamples and witnesses. -/

/-- A public, never-expiring single-choice poll. -/
def pollPub : Poll :=
  { id := 1, title := "abc".data, description := none, creator_id := 100,
    is_public := true, allow_multiple_votes := false, expires_at := none }

/-- First option of the public poll. -/
def optPub0 : PollOption :=
  { id := 10, poll_id := 1, text := "yes".data, vote_count := 1, order_index := 0 }

/-- Second option of the public poll. -/
def optPub1 : PollOption :=
  { id := 11, poll_id := 1, text := "no".data, vote_count := 0, order_index := 1 }

/-- Database in which user 200 has already voted on the public poll. -/
def dbVoted : DB :=
  { profiles := [], polls := [pollPub], poll_options := [optPub0, optPub1],
    votes := [{ poll_id := 1, option_id := 10, user_id := 200 }] }

/-- A private, never-expiring multiple-choice poll. -/
def pollPriv : Poll :=
  { id := 2, title := "def".data, description := none, creator_id := 100,
    is_public := false, allow_multiple_votes := true, expires_at := none }

/-- Option of the private poll. -/
def optPriv0 : PollOption :=
  { id := 20, poll_id := 2, text := "yes".data, vote_count := 0, order_index := 0 }

/-- Database holding only the private poll, with no votes. -/
def dbPriv : DB :=
  { profiles := [], polls := [pollPriv], poll_options := [optPriv0], votes := [] }

/-- Database holding the public poll with no votes yet. -/
def dbFresh : DB :=
  { profiles := [], polls := [pollPub], poll_options := [optPub0, optPub1], votes := [] }

/-- Database containing a stray option row whose id collides with the
first database-generated option id of the next poll creation. -/
def dbCollide : DB :=
  { profiles := [], polls := [], votes := [],
    poll_options := [{ id := 10, poll_id := 777, text := "x".data,
                       vote_count := 0, order_index := 0 }] }

/-- A valid poll-creation body with two options. -/
def bodyOk : CreatePollBody :=
  { title := "abc".data, description := none, is_public := true,
    allow_multiple_votes := false, expires_at := none,
    options := ["yes".data, "no".data] }

/-- The authenticated creator used in the poll-creation scenarios. -/
def creatorUser : AuthUser :=
  { id := 300, email := "a@b.c".data, display_name := none }

/-- A GET request to an API path. -/
def reqGet : MwRequest :=
  { method := .GET, pathname := "/api/polls".data, ip := none,
    csrfHeader := none, csrfCookie := none }

/-- A POST request to an API path carrying no CSRF header or cookie. -/
def reqPostNoCsrf : MwRequest :=
  { method := .POST, pathname := "/api/votes".data, ip := none,
    csrfHeader := none, csrfCookie := none }

/-- A rate-limit store whose entry for that request already counts the
maximum number of requests of the window. -/
def storeAtLimit : RateStore :=
  [("unknown:/api/votes".data, { count := 20, resetAt := 1000000 })]

/-- A cached payload for the public poll, owned by user 100. -/
def cachedPayload : PollPayload :=
  { poll := pollPub, options := [optPub0, optPub1], total_votes := 1 }

/-- A poll cache holding that payload, written at time 0. -/
def cacheWarm : PollCache :=
  [(1, { timestamp := 0, data := cachedPayload })]

/-- The database produced by a successful first vote on the fresh public
poll. -/
def dbAfterVote : DB :=
  (votesPOST dbFresh 0 (some 200) (some { poll_id := 1, option_ids := [10] })).2

/-- Result of a metadata-only PUT of the voted-on public poll by its
creator, with fresh database-generated option ids. -/
def putResult : PutOutcome × DB :=
  pollsPUT dbVoted 0 (some 100) 1 (some bodyOk) [30, 31]

/-- The payload the PUT answered with. -/
def putPayload : PollPayload :=
  match putResult.1 with
  | .updated d => d
  | _ => { poll := pollPub, options := [], total_votes := 0 }

end PollApp

namespace PollApp

/-! Helper lemmas. -/

theorem length_filter_split {α : Type} (l : List α) (p q : α → Bool) :
    (l.filter p).length
      = (l.filter (fun a => p a && q a)).length + (l.filter (fun a => p a && !q a)).length := by
  induction l with
  | nil => rfl
  | cons x xs ih =>
    by_cases hp : p x = true <;> by_cases hq : q x = true <;>
      simp [List.filter_cons, hp, hq, ih] <;> omega

/-! Claim C1: the order of the vote-submission pipeline. -/

/-- C1 counterexample: on a database in which the user has already voted,
with an option id that does not belong to the poll, the handler answers
with the already-voted error while the pipeline in the claim's order
answers with the invalid-options error, so the handler does not perform
the pipeline in the claim's order. -/
theorem votesPOST_order_ne_claimed_order :
    votesPOST dbVoted 0 (some 200) (some { poll_id := 1, option_ids := [99] })
      ≠ specVotePipeline dbVoted 0 (some 200) (some { poll_id := 1, option_ids := [99] }) := by
  decide

/-- C1 (amended): the handler performs the vote-submission pipeline with
the second-vote check before the option-membership and single-choice
checks: validate the input; verify the poll is public and not expired;
reject a second vote from the same identity; ensure every submitted
option belongs to the poll; enforce the single-vs-multiple-choice rule;
then record the vote. Each failing check rejects the request and leaves
the database unchanged, the spec-ordered pipeline being defined to return
the untouched database on every error. -/
theorem votesPOST_eq_spec_pipeline_fixed :
    ∀ (db : DB) (now : Nat) (user : Option Nat) (body : Option VoteBody),
      votesPOST db now user body = specVotePipelineFixed db now user body := by
  intro db now user body
  rfl

/-! Claim C2 counterexample: the two vote-path implementations are not
equivalent. -/

/-- C2 counterexample: a valid first single-option vote on the public
poll is accepted and recorded by the route handler, but the stored
procedure, whose single-choice check reads the nonexistent
is_multiple_choice column and so always ends in the caught status-500
error before its insert, rejects it and records nothing - different
classification and different resulting database, so the two
implementations are not equivalent. -/
theorem vote_impls_not_equivalent : ¬ voteImplsEquivalentClaim := by
  intro h
  have h2 := h dbFresh 0 200 { poll_id := 1, option_ids := [10] } (by decide)
  revert h2
  decide

/-! Claim C5 counterexample: the poll-creation handler performs a
compensating cleanup delete. -/

/-- C5 counterexample: when the options insert of POST /api/polls fails
(here through a primary-key collision), the handler issues a compensating
DELETE of the poll it had just created, so atomicity is not left solely to
the database's transaction manager. -/
theorem pollsPOST_performs_cleanup_delete : ¬ noCompensatingCleanupClaim := by
  intro h
  have h2 := h dbCollide 0 (some creatorUser) (some bodyOk) 51 [10, 11] 51
  revert h2
  decide

/-! Claim C6 counterexample: the rate limiter does not bound non-mutation
requests at all. -/

/-- C6 counterexample: twenty-one identical simultaneous GET requests to
the same API path all pass the middleware, because only mutation methods
are counted, so the limiter does not reject every request beyond the
twentieth of a window. -/
theorem rate_limiter_ignores_get : ¬ rateLimiterClaim := by
  intro h
  have h2 := h reqGet 0 21 (by decide) (by decide)
  revert h2
  decide

/-! Claim C9 counterexample: an over-limit mutation request without CSRF
tokens is rejected with 429, not 403. -/

/-- C9 counterexample: a mutation request to an API path outside the auth
paths and without any CSRF token is rejected with 429 rather than 403 when
its identifier's window is already at the limit, so the CSRF rejection is
not the unconditional fate of token-less mutation requests. -/
theorem csrf_rejection_preempted_by_rate_limit : ¬ csrfClaim := by
  intro h
  have h2 := h storeAtLimit 0 reqPostNoCsrf (by decide) (by decide) (by decide) (by decide)
  revert h2
  decide

/-! Claim C7 counterexample: an unauthenticated cache miss is answered 401
without a database query. -/

/-- C7 counterexample: an unauthenticated request that misses the cache is
rejected with 401 and the handler never queries the database, so it is not
true that every non-cache-served request is answered by a fresh query. -/
theorem cache_miss_unauthenticated_is_401 : ¬ cacheClaim := by
  intro h
  exact h DB.init [] 0 none 1 false (by decide)

/-! Store lemmas for the middleware characterizations. -/

theorem storeFind_storeSet_self (s : RateStore) (k : List Char) (e e' : RateEntry)
    (h : storeFind s k = some e) : storeFind (storeSet s k e') k = some e' := by
  induction s with
  | nil => simp [storeFind] at h
  | cons kv t ih =>
    by_cases hk : (kv.1 == k) = true
    · simp [storeFind, storeSet, hk]
    · have hk' : (kv.1 == k) = false := by simpa using hk
      simp only [storeFind, storeSet, hk', Bool.false_eq_true, if_false] at *
      exact ih h

theorem storeFind_rateLimitInit (s : RateStore) (k : List Char) (now : Nat) :
    ∃ r, storeFind (rateLimitInit s k now) k = some { count := countOf s k, resetAt := r } := by
  unfold rateLimitInit countOf
  cases h : storeFind s k with
  | none =>
    refine ⟨now + RATE_LIMIT_WINDOW, ?_⟩
    simp [storeFind, h]
  | some e =>
    exact ⟨e.resetAt, by simp [h]⟩

theorem storeFind_rateLimitBump (s : RateStore) (k : List Char) (e : RateEntry)
    (h : storeFind s k = some e) :
    storeFind (rateLimitBump s k) k = some { count := e.count + 1, resetAt := e.resetAt } := by
  unfold rateLimitBump
  rw [h]
  exact storeFind_storeSet_self s k e _ h

theorem storeFind_after_limit (s : RateStore) (k : List Char) (now : Nat) :
    ∃ r, storeFind (rateLimitBump (rateLimitInit s k now) k) k
      = some { count := countOf s k + 1, resetAt := r } := by
  obtain ⟨r, hr⟩ := storeFind_rateLimitInit s k now
  exact ⟨r, storeFind_rateLimitBump _ k _ hr⟩

/-! Claim C6 (amended): characterization of the rate limiter's rejections. -/

/-- C6 (amended): the middleware rejects a request with 429 exactly when
it is a mutation-method request to an /api/ path whose incremented
rate-limit count (the stored count for its ip-and-path identifier, plus
one for this request) exceeds the maximum of 20; non-mutation requests
are never counted or rejected by the limiter, and a mutation request
charged at most 20 against its window entry is never rejected by it.
Window entries persist until the periodic cleanup removes them, so the
count is per stored entry rather than per 60-second arrival window. -/
theorem rate_limited_iff :
    ∀ (store : RateStore) (now : Nat) (req : MwRequest),
      (middleware store now req).1 = .tooMany ↔
        (isMutationMethod req.method = true
          ∧ List.isPrefixOf ("/api/".data) req.pathname = true
          ∧ MAX_REQUESTS_PER_WINDOW < chargedCount store req) := by
  intro store now req
  unfold middleware
  cases hm : isMutationMethod req.method with
  | false => simp [hm]
  | true =>
    cases ha : List.isPrefixOf ("/api/".data) req.pathname with
    | false =>
      simp only [hm, ha, Bool.not_true, Bool.false_eq_true, if_false, Bool.false_and]
      split
      · simp [ha]
      · simp [ha]
    | true =>
      obtain ⟨r, hr⟩ := storeFind_after_limit store (identifierOf req) now
      simp only [hm, ha, Bool.not_true, Bool.false_eq_true, if_false, if_true, hr,
        chargedCount, Bool.true_and]
      by_cases ho : MAX_REQUESTS_PER_WINDOW < countOf store (identifierOf req) + 1
      · have ho' : decide (MAX_REQUESTS_PER_WINDOW < countOf store (identifierOf req) + 1)
            = true := decide_eq_true ho
        simp only [ho', if_true]
        simp [ho]
      · have ho' : decide (MAX_REQUESTS_PER_WINDOW < countOf store (identifierOf req) + 1)
            = false := decide_eq_false ho
        simp only [ho', Bool.false_eq_true, if_false]
        split
        · simp [ho]
        · split <;> simp [ho]

/-! Claim C9 (amended): characterization of the CSRF rejections. -/

/-- C9 (amended): the middleware rejects a request with 403 exactly when
it is a mutation-method request to an /api/ path outside /api/auth/ that
does not carry equal, present X-CSRF-Token header and csrf_token cookie
values, and that is not already rejected by the rate limiter (that is, its
incremented rate-limit count stays within the maximum of 20); requests
with any other method are never subjected to the CSRF check. -/
theorem csrf_rejected_iff :
    ∀ (store : RateStore) (now : Nat) (req : MwRequest),
      (middleware store now req).1 = .forbidden ↔
        (isMutationMethod req.method = true
          ∧ List.isPrefixOf ("/api/".data) req.pathname = true
          ∧ List.isPrefixOf ("/api/auth/".data) req.pathname = false
          ∧ csrfOk req = false
          ∧ chargedCount store req ≤ MAX_REQUESTS_PER_WINDOW) := by
  intro store now req
  unfold middleware
  cases hm : isMutationMethod req.method with
  | false => simp [hm]
  | true =>
    cases ha : List.isPrefixOf ("/api/".data) req.pathname with
    | false =>
      simp only [hm, ha, Bool.not_true, Bool.false_eq_true, if_false, Bool.false_and]
      split
      · simp [ha]
      · simp [ha]
    | true =>
      obtain ⟨r, hr⟩ := storeFind_after_limit store (identifierOf req) now
      simp only [hm, ha, Bool.not_true, Bool.false_eq_true, if_false, if_true, hr,
        chargedCount, Bool.true_and]
      by_cases ho : MAX_REQUESTS_PER_WINDOW < countOf store (identifierOf req) + 1
      · have ho' : decide (MAX_REQUESTS_PER_WINDOW < countOf store (identifierOf req) + 1)
            = true := decide_eq_true ho
        simp only [ho', if_true]
        constructor
        · intro hcontra
          simp at hcontra
        · rintro ⟨-, -, -, hle⟩
          omega
      · have ho' : decide (MAX_REQUESTS_PER_WINDOW < countOf store (identifierOf req) + 1)
            = false := decide_eq_false ho
        simp only [ho', Bool.false_eq_true, if_false]
        cases hauth : List.isPrefixOf ("/api/auth/".data) req.pathname with
        | true => simp [hauth]
        | false =>
          simp only [hauth, Bool.false_eq_true, if_false, Bool.true_and]
          cases hc : csrfOk req with
          | true => simp [hc]
          | false =>
            simp only [hc, Bool.not_false, Bool.and_true, if_true, Bool.false_eq_true,
              true_and]
            constructor
            · intro _
              omega
            · intro _
              trivial

/-! Claim C7 (amended): the cache serves only fresh entries to their
owners; everything else is a 401 or a fresh database query. -/

theorem selectSingle_eq_some {α : Type} {l : List α} {x : α}
    (h : selectSingle l = some x) : l = [x] := by
  match l with
  | [] => simp [selectSingle] at h
  | [y] =>
    simp [selectSingle] at h
    rw [h]
  | y :: z :: t => simp [selectSingle] at h

/-- C7 (amended): the poll-by-id GET serves a cached payload only when the
cache entry is younger than the 10-second TTL and the requester is
authenticated as the cached poll's creator; the handler answers 401
exactly on unauthenticated requests it does not serve from the cache, and
every payload served fresh comes from a database query restricted to the
requester's own polls, carrying the stored vote counters. -/
theorem cache_fresh_owner_only :
    ∀ (db : DB) (cache : PollCache) (now : Nat) (user : Option Nat) (pollId : Nat)
      (draw : Bool),
      (∀ d, (getPollById db cache now user pollId draw).1 = .cached d →
        ∃ e, cacheGet cache pollId = some e ∧ d = e.data
          ∧ now - e.timestamp < CACHE_TTL * 1000
          ∧ user = some e.data.poll.creator_id)
      ∧ ((getPollById db cache now user pollId draw).1 = .unauthorized ↔ user = none)
      ∧ (∀ d, (getPollById db cache now user pollId draw).1 = .fromDb d →
          ∃ u, user = some u ∧ d.poll ∈ db.polls ∧ d.poll.id = pollId
            ∧ d.poll.creator_id = u
            ∧ d.total_votes = ((db.poll_options.filter
                (fun o => o.poll_id == pollId)).map (fun o => o.vote_count)).sum) := by
  intro db cache now user pollId draw
  unfold getPollById
  cases hcg : cacheGet cache pollId with
  | some e =>
    cases user with
    | none =>
      simp only [hcg]
      refine ⟨?_, ?_, ?_⟩ <;> simp
    | some u =>
      by_cases hh : (decide (now - e.timestamp < CACHE_TTL * 1000)
          && e.data.poll.creator_id == u) = true
      · simp only [hcg, hh]
        rw [Bool.and_eq_true] at hh
        obtain ⟨h1, h2⟩ := hh
        refine ⟨?_, ?_, ?_⟩
        · intro d hd
          simp only [GetPollResult.cached.injEq] at hd
          have h2' : e.data.poll.creator_id = u := by simpa using h2
          exact ⟨e, rfl, hd.symm, by simpa using h1, by rw [h2']⟩
        · simp
        · intro d hd
          simp at hd
      · have hh' : (decide (now - e.timestamp < CACHE_TTL * 1000)
            && e.data.poll.creator_id == u) = false := by simpa using hh
        simp only [hcg, hh']
        cases hsel : selectSingle (db.polls.filter
            (fun p => p.id == pollId && p.creator_id == u)) with
        | none =>
          refine ⟨?_, ?_, ?_⟩ <;> simp
        | some poll =>
          have hmem : poll ∈ db.polls.filter (fun p => p.id == pollId && p.creator_id == u) := by
            rw [selectSingle_eq_some hsel]
            exact List.mem_singleton.mpr rfl
          rw [List.mem_filter, Bool.and_eq_true] at hmem
          obtain ⟨hp, hid, hcr⟩ := hmem
          refine ⟨?_, ?_, ?_⟩
          · intro d hd
            simp at hd
          · simp
          · intro d hd
            simp only [GetPollResult.fromDb.injEq] at hd
            refine ⟨u, rfl, ?_⟩
            rw [← hd]
            exact ⟨hp, by simpa using hid, by simpa using hcr, rfl⟩
  | none =>
    cases user with
    | none =>
      simp only [hcg]
      refine ⟨?_, ?_, ?_⟩ <;> simp
    | some u =>
      simp only [hcg]
      cases hsel : selectSingle (db.polls.filter
          (fun p => p.id == pollId && p.creator_id == u)) with
      | none =>
        refine ⟨?_, ?_, ?_⟩ <;> simp
      | some poll =>
        have hmem : poll ∈ db.polls.filter (fun p => p.id == pollId && p.creator_id == u) := by
          rw [selectSingle_eq_some hsel]
          exact List.mem_singleton.mpr rfl
        rw [List.mem_filter, Bool.and_eq_true] at hmem
        obtain ⟨hp, hid, hcr⟩ := hmem
        refine ⟨?_, ?_, ?_⟩
        · intro d hd
          simp at hd
        · simp
        · intro d hd
          simp only [GetPollResult.fromDb.injEq] at hd
          refine ⟨u, rfl, ?_⟩
          rw [← hd]
          exact ⟨hp, by simpa using hid, by simpa using hcr, rfl⟩

/-- C7 witness: at time 5000 the poll creator is served the cached
payload, and the theorem yields the freshness and ownership facts for this
concrete hit. -/
theorem cache_fresh_owner_only_witness :
    ∃ e, cacheGet cacheWarm 1 = some e ∧ cachedPayload = e.data
      ∧ 5000 - e.timestamp < CACHE_TTL * 1000
      ∧ (some 100 : Option Nat) = some e.data.poll.creator_id :=
  (cache_fresh_owner_only DB.init cacheWarm 5000 (some 100) 1 false).1
    cachedPayload (by decide)

/-! The UNIQUE(poll_id, user_id) constraint on the votes insert. -/

theorem violates_second_row (db : DB) (pid uid o1 o2 : Nat) :
    violatesVoteConstraints (insertVoteRow db { poll_id := pid, option_id := o1, user_id := uid })
      { poll_id := pid, option_id := o2, user_id := uid } = true := by
  unfold violatesVoteConstraints insertVoteRow
  simp

theorem insertVotes_same_pair_shape (db : DB) (pid uid : Nat) (oids : List Nat) (db2 : DB)
    (h : insertVotes db (oids.map
      (fun oid => { poll_id := pid, option_id := oid, user_id := uid : Vote })) = some db2) :
    oids = [] ∨ ∃ oid, oids = [oid]
      ∧ violatesVoteConstraints db { poll_id := pid, option_id := oid, user_id := uid } = false
      ∧ db2 = insertVoteRow db { poll_id := pid, option_id := oid, user_id := uid } := by
  match oids with
  | [] => exact Or.inl rfl
  | [o] =>
    refine Or.inr ⟨o, rfl, ?_⟩
    simp only [List.map_cons, List.map_nil, insertVotes] at h
    cases hviol : violatesVoteConstraints db { poll_id := pid, option_id := o, user_id := uid } with
    | true => simp [hviol] at h
    | false =>
      simp only [hviol, Bool.false_eq_true, if_false, insertVotes] at h
      exact ⟨rfl, by injection h with h2; rw [h2]⟩
  | o :: o2 :: rest =>
    exfalso
    simp only [List.map_cons, insertVotes] at h
    cases hviol : violatesVoteConstraints db { poll_id := pid, option_id := o, user_id := uid } with
    | true => simp [hviol] at h
    | false =>
      simp only [hviol, Bool.false_eq_true, if_false, insertVotes,
        violates_second_row, if_true] at h
      exact Option.noConfusion h

/-! Claim C8: only single-option votes can ever be recorded. -/

/-- C8: because every vote row of a submission carries the same
(poll_id, user_id) pair and the votes table is UNIQUE on that pair, a
successful vote submission selects exactly one option, whatever the
poll's allow_multiple_votes flag says. -/
theorem recorded_votes_single_option :
    ∀ (db : DB) (now uid : Nat) (b : VoteBody) (db2 : DB),
      votesPOST db now (some uid) (some b) = (.voteRecorded, db2) →
      b.option_ids.length = 1 := by
  intro db now uid b db2 h
  unfold votesPOST at h
  cases hv : voteSchemaOk b with
  | false => simp [hv] at h
  | true =>
    simp only [hv, Bool.not_true, Bool.false_eq_true, if_false] at h
    cases hp : selectSingle (db.polls.filter (fun p => p.id == b.poll_id && p.is_public)) with
    | none => simp [hp] at h
    | some poll =>
      simp only [hp] at h
      cases he : pollExpiredAt poll now with
      | true => simp [he] at h
      | false =>
        simp only [he, Bool.false_eq_true, if_false] at h
        cases hvd : (selectSingle (db.votes.filter
            (fun v => v.poll_id == b.poll_id && v.user_id == uid))).isSome with
        | true => simp [hvd] at h
        | false =>
          simp only [hvd, Bool.false_eq_true, if_false] at h
          cases hlen : ((db.poll_options.filter
              (fun o => o.poll_id == b.poll_id && b.option_ids.contains o.id)).length
              != b.option_ids.length) with
          | true =>
            have hlen' : (db.poll_options.filter
                (fun o => o.poll_id == b.poll_id && decide (o.id ∈ b.option_ids))).length
                ≠ b.option_ids.length := by simpa using hlen
            simp [hlen'] at h
          | false =>
            simp only [hlen, Bool.false_eq_true, if_false] at h
            cases hsc : (!poll.allow_multiple_votes && decide (1 < b.option_ids.length)) with
            | true => simp [hsc] at h
            | false =>
              simp only [hsc, Bool.false_eq_true, if_false] at h
              cases hins : insertVotes db (b.option_ids.map
                  (fun oid => { poll_id := b.poll_id, option_id := oid, user_id := uid : Vote })) with
              | none => simp [hins] at h
              | some db3 =>
                simp only [hins] at h
                rcases insertVotes_same_pair_shape db b.poll_id uid b.option_ids db3 hins with
                  hnil | ⟨oid, hone, -, -⟩
                · unfold voteSchemaOk at hv
                  rw [hnil] at hv
                  simp at hv
                · rw [hone]
                  rfl

/-- C8 witness: a successful vote on the fresh poll exists, and the
theorem yields that its submission selected exactly one option. -/
theorem recorded_votes_single_option_witness :
    (VoteBody.mk 1 [10]).option_ids.length = 1 :=
  recorded_votes_single_option dbFresh 0 200 { poll_id := 1, option_ids := [10] }
    dbAfterVote (by decide)

/-! Claim C3: one vote per user per poll. -/

/-- C3: a successful vote submission leaves exactly one vote row for its
(poll, user) pair, the uniqueness being backed by the UNIQUE(poll_id,
user_id) constraint checked on insert; and once a vote row for the pair
exists (on a live public poll), every later submission by the same user on
the same poll is rejected with the already-voted error and leaves the
database, hence all stored votes and vote counts, unchanged. -/
theorem vote_once_per_user :
    (∀ (db : DB) (now uid : Nat) (b : VoteBody) (db2 : DB),
      votesPOST db now (some uid) (some b) = (.voteRecorded, db2) →
      (db2.votes.filter (fun v => v.poll_id == b.poll_id && v.user_id == uid)).length = 1)
    ∧ (∀ (db : DB) (now uid pid : Nat) (oids : List Nat) (poll : Poll),
      1 ≤ oids.length →
      selectSingle (db.polls.filter (fun p => p.id == pid && p.is_public)) = some poll →
      pollExpiredAt poll now = false →
      (db.votes.filter (fun v => v.poll_id == pid && v.user_id == uid)).length = 1 →
      votesPOST db now (some uid) (some { poll_id := pid, option_ids := oids })
        = (.alreadyVoted, db)) := by
  constructor
  · intro db now uid b db2 h
    unfold votesPOST at h
    cases hv : voteSchemaOk b with
    | false => simp [hv] at h
    | true =>
      simp only [hv, Bool.not_true, Bool.false_eq_true, if_false] at h
      cases hp : selectSingle (db.polls.filter (fun p => p.id == b.poll_id && p.is_public)) with
      | none => simp [hp] at h
      | some poll =>
        simp only [hp] at h
        cases he : pollExpiredAt poll now with
        | true => simp [he] at h
        | false =>
          simp only [he, Bool.false_eq_true, if_false] at h
          cases hvd : (selectSingle (db.votes.filter
              (fun v => v.poll_id == b.poll_id && v.user_id == uid))).isSome with
          | true => simp [hvd] at h
          | false =>
            simp only [hvd, Bool.false_eq_true, if_false] at h
            cases hlen : ((db.poll_options.filter
                (fun o => o.poll_id == b.poll_id && b.option_ids.contains o.id)).length
                != b.option_ids.length) with
            | true =>
              have hlen' : (db.poll_options.filter
                  (fun o => o.poll_id == b.poll_id && decide (o.id ∈ b.option_ids))).length
                  ≠ b.option_ids.length := by simpa using hlen
              simp [hlen'] at h
            | false =>
              simp only [hlen, Bool.false_eq_true, if_false] at h
              cases hsc : (!poll.allow_multiple_votes && decide (1 < b.option_ids.length)) with
              | true => simp [hsc] at h
              | false =>
                simp only [hsc, Bool.false_eq_true, if_false] at h
                cases hins : insertVotes db (b.option_ids.map
                    (fun oid =>
                      { poll_id := b.poll_id, option_id := oid, user_id := uid : Vote })) with
                | none => simp [hins] at h
                | some db3 =>
                  simp only [hins, Prod.mk.injEq] at h
                  rcases insertVotes_same_pair_shape db b.poll_id uid b.option_ids db3 hins with
                    hnil | ⟨oid, hone, hviol, hdb3⟩
                  · unfold voteSchemaOk at hv
                    rw [hnil] at hv
                    simp at hv
                  · have hdb2 : db2 = insertVoteRow db
                        { poll_id := b.poll_id, option_id := oid, user_id := uid } := by
                      rw [← h.2, hdb3]
                    have hA : db.votes.any
                        (fun w => w.poll_id == b.poll_id && w.user_id == uid) = false := by
                      unfold violatesVoteConstraints at hviol
                      rcases Bool.or_eq_false_iff.mp hviol with ⟨h1, -⟩
                      rcases Bool.or_eq_false_iff.mp h1 with ⟨h2, -⟩
                      exact h2
                    have hfil : db.votes.filter
                        (fun v => v.poll_id == b.poll_id && v.user_id == uid) = [] := by
                      rw [List.filter_eq_nil_iff]
                      intro a ha
                      have := List.any_eq_false.mp hA a ha
                      simpa using this
                    rw [hdb2]
                    unfold insertVoteRow
                    simp [List.filter_append, hfil]
  · intro db now uid pid oids poll hlen hp he hone
    obtain ⟨x, hx⟩ := List.length_eq_one.mp hone
    have hv : voteSchemaOk { poll_id := pid, option_ids := oids } = true := by
      unfold voteSchemaOk
      simpa using hlen
    unfold votesPOST
    simp only [hv, Bool.not_true, Bool.false_eq_true, if_false, hp, he, hx]
    simp [selectSingle]

/-- C3 witness: in the database in which user 200 already holds a vote on
the public poll, the theorem yields that a second submission is rejected
with the already-voted error and the database is untouched. -/
theorem vote_once_per_user_witness :
    votesPOST dbVoted 0 (some 200) (some { poll_id := 1, option_ids := [11] })
      = (.alreadyVoted, dbVoted) :=
  vote_once_per_user.2 dbVoted 0 200 1 [11] pollPub
    (by decide) (by decide) (by decide) (by decide)

/-! Claim C5 (amended): where atomicity really comes from. -/

/-- C5 (amended): recording a multi-option vote is a single all-or-nothing
votes insert, so a failed vote submission leaves the database unchanged;
but poll creation is two separate statements, and when the options insert
fails the handler itself issues a compensating DELETE of the poll it had
just created (visible in its statement trace), leaving no poll with the
new id behind, rather than relying on a database transaction. -/
theorem multi_step_mutation_outcomes :
    (∀ (db : DB) (now : Nat) (user : Option AuthUser) (body : Option CreatePollBody)
      (newPollId : Nat) (newOptionIds : List Nat) (out : CreateOutcome) (db2 : DB)
      (tr : List Stmt),
      pollsPOST db now user body newPollId newOptionIds = (out, db2, tr) →
      out = .optionsInsertError →
      Stmt.deletePollS newPollId ∈ tr ∧ ∀ p ∈ db2.polls, p.id ≠ newPollId)
    ∧ (∀ (db : DB) (now : Nat) (user : Option Nat) (body : Option VoteBody),
      (votesPOST db now user body).1 ≠ .voteRecorded → (votesPOST db now user body).2 = db) := by
  constructor
  · intro db now user body newPollId newOptionIds out db2 tr h hout
    subst hout
    unfold pollsPOST at h
    cases user with
    | none => simp at h
    | some u =>
      cases hpe : selectSingle (db.profiles.filter (fun p => p.id == u.id)) with
      | some prof =>
        simp only [hpe] at h
        cases body with
        | none => simp at h
        | some b =>
          cases hcs : createPollSchemaOk now b with
          | false => simp [hcs] at h
          | true =>
            simp only [hcs, Bool.not_true, Bool.false_eq_true, if_false] at h
            cases hip : insertPoll db
                { id := newPollId, title := b.title, description := b.description,
                  creator_id := u.id, is_public := b.is_public,
                  allow_multiple_votes := b.allow_multiple_votes,
                  expires_at := b.expires_at } with
            | none => simp [hip] at h
            | some db1 =>
              simp only [hip] at h
              cases hio : insertOptions db1 (mkOptionRows newPollId newOptionIds b.options) with
              | some db3 => simp [hio] at h
              | none =>
                simp only [hio, Prod.mk.injEq] at h
                obtain ⟨hdb2, htr⟩ := h.2
                constructor
                · rw [← htr]
                  simp
                · intro p hp
                  rw [← hdb2] at hp
                  unfold deletePollCascade at hp
                  simp only [List.mem_filter] at hp
                  simpa using hp.2
      | none =>
        simp only [hpe] at h
        cases hipr : insertProfile db
            { id := u.id, email := u.email,
              display_name := some (u.display_name.getD (emailLocalPart u.email)) } with
        | none => simp [hipr] at h
        | some db1 =>
          simp only [hipr] at h
          cases body with
          | none => simp at h
          | some b =>
            cases hcs : createPollSchemaOk now b with
            | false => simp [hcs] at h
            | true =>
              simp only [hcs, Bool.not_true, Bool.false_eq_true, if_false] at h
              cases hip : insertPoll db1
                  { id := newPollId, title := b.title, description := b.description,
                    creator_id := u.id, is_public := b.is_public,
                    allow_multiple_votes := b.allow_multiple_votes,
                    expires_at := b.expires_at } with
              | none => simp [hip] at h
              | some db1b =>
                simp only [hip] at h
                cases hio : insertOptions db1b (mkOptionRows newPollId newOptionIds b.options) with
                | some db3 => simp [hio] at h
                | none =>
                  simp only [hio, Prod.mk.injEq] at h
                  obtain ⟨hdb2, htr⟩ := h.2
                  constructor
                  · rw [← htr]
                    simp
                  · intro p hp
                    rw [← hdb2] at hp
                    unfold deletePollCascade at hp
                    simp only [List.mem_filter] at hp
                    simpa using hp.2
  · intro db now user body hne
    unfold votesPOST at *
    cases user with
    | none => rfl
    | some uid =>
      cases body with
      | none => rfl
      | some b =>
        cases hv : voteSchemaOk b with
        | false => simp [hv]
        | true =>
          simp only [hv, Bool.not_true, Bool.false_eq_true, if_false] at *
          cases hp : selectSingle (db.polls.filter
              (fun p => p.id == b.poll_id && p.is_public)) with
          | none => simp [hp]
          | some poll =>
            simp only [hp] at *
            cases he : pollExpiredAt poll now with
            | true => simp [he]
            | false =>
              simp only [he, Bool.false_eq_true, if_false] at *
              cases hvd : (selectSingle (db.votes.filter
                  (fun v => v.poll_id == b.poll_id && v.user_id == uid))).isSome with
              | true => simp [hvd]
              | false =>
                simp only [hvd, Bool.false_eq_true, if_false] at *
                cases hlen : ((db.poll_options.filter
                    (fun o => o.poll_id == b.poll_id && b.option_ids.contains o.id)).length
                    != b.option_ids.length) with
                | true =>
                  have hlen' : (db.poll_options.filter
                      (fun o => o.poll_id == b.poll_id
                        && decide (o.id ∈ b.option_ids))).length
                      ≠ b.option_ids.length := by simpa using hlen
                  simp [hlen']
                | false =>
                  simp only [hlen, Bool.false_eq_true, if_false] at *
                  cases hsc : (!poll.allow_multiple_votes
                      && decide (1 < b.option_ids.length)) with
                  | true => simp [hsc]
                  | false =>
                    simp only [hsc, Bool.false_eq_true, if_false] at *
                    cases hins : insertVotes db (b.option_ids.map
                        (fun oid =>
                          { poll_id := b.poll_id, option_id := oid, user_id := uid : Vote })) with
                    | none => simp [hins]
                    | some db3 =>
                      exfalso
                      apply hne
                      simp [hins]

/-- C5 witness: on the database with a colliding option id, poll creation
fails at the options insert, the theorem yields the compensating delete in
the trace and the absence of the new poll, and a failed vote submission
(on the already-voted database) leaves it untouched. -/
theorem multi_step_mutation_outcomes_witness :
    (Stmt.deletePollS 51 ∈ (pollsPOST dbCollide 0 (some creatorUser) (some bodyOk) 51
        [10, 11]).2.2
      ∧ ∀ p ∈ (pollsPOST dbCollide 0 (some creatorUser) (some bodyOk) 51 [10, 11]).2.1.polls,
          p.id ≠ 51)
    ∧ (votesPOST dbVoted 0 (some 200) (some { poll_id := 1, option_ids := [10] })).2
        = dbVoted :=
  ⟨multi_step_mutation_outcomes.1 dbCollide 0 (some creatorUser) (some bodyOk) 51 [10, 11]
      (pollsPOST dbCollide 0 (some creatorUser) (some bodyOk) 51 [10, 11]).1
      (pollsPOST dbCollide 0 (some creatorUser) (some bodyOk) 51 [10, 11]).2.1
      (pollsPOST dbCollide 0 (some creatorUser) (some bodyOk) 51 [10, 11]).2.2
      (by decide) (by decide),
    multi_step_mutation_outcomes.2 dbVoted 0 (some 200)
      (some { poll_id := 1, option_ids := [10] }) (by decide)⟩

/-! The delete trigger fold and the options insert, characterized. -/

theorem foldl_del_eq_map (dead : List Vote) (options : List PollOption) :
    dead.foldl (fun acc v => update_vote_counts_del acc v.option_id) options
      = options.map (fun o =>
          { o with vote_count := o.vote_count
              - ((dead.filter (fun w : Vote => w.option_id == o.id)).length : Int) }) := by
  induction dead generalizing options with
  | nil =>
    simp only [List.foldl_nil, List.filter_nil, List.length_nil, Nat.cast_zero, sub_zero]
    have he : (fun o : PollOption => { o with vote_count := o.vote_count })
        = fun o : PollOption => o := by
      funext o
      rfl
    rw [he]
    simp
  | cons v rest ih =>
    simp only [List.foldl_cons]
    rw [ih]
    unfold update_vote_counts_del
    rw [List.map_map]
    have he : ((fun o : PollOption =>
          { o with vote_count := o.vote_count
              - ((rest.filter (fun w : Vote => w.option_id == o.id)).length : Int) })
        ∘ (fun o : PollOption =>
          if o.id == v.option_id then { o with vote_count := o.vote_count - 1 } else o))
        = fun o : PollOption =>
          { o with vote_count := o.vote_count
              - (((v :: rest).filter (fun w : Vote => w.option_id == o.id)).length : Int) } := by
      funext o
      by_cases hid : (o.id == v.option_id) = true
      · have hvo : (v.option_id == o.id) = true := by
          have hoe : o.id = v.option_id := by simpa using hid
          simp [hoe]
        simp only [Function.comp_apply, hid, if_true, List.filter_cons, hvo,
          List.length_cons, PollOption.mk.injEq, true_and, and_true]
        push_cast
        ring
      · have hid' : (o.id == v.option_id) = false := by simpa using hid
        have hvo : (v.option_id == o.id) = false := by
          have hne : ¬ o.id = v.option_id := by simpa using hid
          simp only [beq_eq_false_iff_ne, ne_eq]
          exact fun hcontra => hne hcontra.symm
        simp only [Function.comp_apply, hid', Bool.false_eq_true, if_false,
          List.filter_cons, hvo]
    rw [he]

theorem insertOptions_spec (rows : List OptionRow) : ∀ (db db' : DB),
    insertOptions db rows = some db' →
    db'.profiles = db.profiles ∧ db'.polls = db.polls ∧ db'.votes = db.votes
      ∧ db'.poll_options = db.poll_options ++ rows.map (fun r =>
          { id := r.id, poll_id := r.poll_id, text := r.text,
            vote_count := 0, order_index := r.order_index }) := by
  induction rows with
  | nil =>
    intro db db' h
    unfold insertOptions at h
    injection h with h
    rw [← h]
    simp
  | cons r rs ih =>
    intro db db' h
    unfold insertOptions at h
    cases hdup : db.poll_options.any (fun o => o.id == r.id) with
    | true => simp [hdup] at h
    | false =>
      simp only [hdup, Bool.false_eq_true, if_false] at h
      obtain ⟨h1, h2, h3, h4⟩ := ih _ _ h
      refine ⟨h1, h2, h3, ?_⟩
      rw [h4]
      simp

/-! Claim C10: a poll update destroys all accumulated tallies. -/

/-- C10: every successful PUT of a poll deletes the existing option rows
and inserts a fresh list, so the poll's vote rows are cascade-deleted with
their options, every option of the poll afterwards carries vote_count 0,
and the response reports total_votes = 0 - for every update, including one
that only changes poll metadata. The hypothesis states the foreign-key
discipline the application maintains: every vote of the poll references an
option of the poll. -/
theorem put_resets_tallies :
    ∀ (db : DB) (now uid pollId : Nat) (b : CreatePollBody) (newOptionIds : List Nat)
      (d : PollPayload) (db2 : DB),
      (∀ v ∈ db.votes, v.poll_id = pollId →
        ∃ o ∈ db.poll_options, o.id = v.option_id ∧ o.poll_id = pollId) →
      pollsPUT db now (some uid) pollId (some b) newOptionIds = (.updated d, db2) →
      d.total_votes = 0
      ∧ (∀ v ∈ db2.votes, v.poll_id ≠ pollId)
      ∧ (∀ o ∈ db2.poll_options, o.poll_id = pollId → o.vote_count = 0)
      ∧ (∀ o ∈ d.options, o.vote_count = 0) := by
  intro db now uid pollId b newOptionIds d db2 hfk h
  unfold pollsPUT at h
  cases hcs : createPollSchemaOk now b with
  | false => simp [hcs] at h
  | true =>
    simp only [hcs, Bool.not_true, Bool.false_eq_true, if_false] at h
    cases hp1 : selectSingle (db.polls.filter
        (fun p => p.id == pollId && p.creator_id == uid)) with
    | none => simp [hp1] at h
    | some p0 =>
      simp only [hp1] at h
      cases hp2 : selectSingle ((updatePollMeta db pollId uid b).polls.filter
          (fun p => p.id == pollId && p.creator_id == uid)) with
      | none => simp [hp2] at h
      | some updatedPoll =>
        simp only [hp2] at h
        cases hio : insertOptions (deleteOptionsCascade (updatePollMeta db pollId uid b) pollId)
            (mkOptionRows pollId newOptionIds b.options) with
        | none => simp [hio] at h
        | some db3 =>
          simp only [hio, Prod.mk.injEq, PutOutcome.updated.injEq] at h
          obtain ⟨hd, hdb2⟩ := h
          obtain ⟨-, -, hvotes3, hopts3⟩ := insertOptions_spec _ _ _ hio
          have hvotesdel : (deleteOptionsCascade (updatePollMeta db pollId uid b) pollId).votes
              = db.votes.filter (fun v =>
                !(((db.poll_options.filter (fun o => o.poll_id == pollId)).map
                    (fun o => o.id)).contains v.option_id)) := rfl
          have hvmem : ∀ v ∈ db2.votes, v.poll_id ≠ pollId := by
            intro v hv hvp
            rw [← hdb2, hvotes3, hvotesdel] at hv
            rw [List.mem_filter] at hv
            obtain ⟨hvmem0, hvpred⟩ := hv
            obtain ⟨o, hoin, hoid, hopoll⟩ := hfk v hvmem0 hvp
            have hocontains : ((db.poll_options.filter
                (fun o => o.poll_id == pollId)).map (fun o => o.id)).contains v.option_id
                = true := by
              apply List.elem_eq_true_of_mem
              rw [List.mem_map]
              refine ⟨o, ?_, hoid⟩
              rw [List.mem_filter]
              exact ⟨hoin, by simp [hopoll]⟩
            rw [hocontains] at hvpred
            simp at hvpred
          have hoptsdel : (deleteOptionsCascade (updatePollMeta db pollId uid b) pollId).poll_options
              = ((db.votes.filter (fun v =>
                    (((db.poll_options.filter (fun o => o.poll_id == pollId)).map
                      (fun o => o.id)).contains v.option_id))).foldl
                  (fun acc v => update_vote_counts_del acc v.option_id)
                  (db.poll_options.filter (fun o => !(o.poll_id == pollId)))) := rfl
          have homem : ∀ o ∈ db2.poll_options, o.poll_id = pollId → o.vote_count = 0 := by
            intro o ho hop
            rw [← hdb2, hopts3] at ho
            rw [List.mem_append] at ho
            cases ho with
            | inl hleft =>
              exfalso
              rw [hoptsdel, foldl_del_eq_map] at hleft
              rw [List.mem_map] at hleft
              obtain ⟨o0, ho0, rfl⟩ := hleft
              rw [List.mem_filter] at ho0
              have : o0.poll_id ≠ pollId := by simpa using ho0.2
              exact this hop
            | inr hright =>
              rw [List.mem_map] at hright
              obtain ⟨r, -, rfl⟩ := hright
              rfl
          refine ⟨?_, hvmem, homem, ?_⟩
          · rw [← hd]
          · intro o ho
            rw [← hd] at ho
            simp only [List.mem_filter] at ho
            exact homem o (by rw [← hdb2]; exact ho.1) (by simpa using ho.2)

/-- C10 witness: the creator's PUT of the voted-on poll succeeds, and the
theorem yields the zeroed report, the destroyed vote rows, and the zeroed
option counters for this concrete update. -/
theorem put_resets_tallies_witness :
    putPayload.total_votes = 0
    ∧ (∀ v ∈ putResult.2.votes, v.poll_id ≠ 1)
    ∧ (∀ o ∈ putResult.2.poll_options, o.poll_id = 1 → o.vote_count = 0)
    ∧ (∀ o ∈ putPayload.options, o.vote_count = 0) :=
  put_resets_tallies dbVoted 0 100 1 bodyOk [30, 31] putPayload putResult.2
    (by decide) (by decide)

/-! Helper lemmas for the equivalence of the two vote-path
implementations. -/

theorem filter_id_eq_of_find (l : List Poll) (pid : Nat)
    (hnd : (l.map Poll.id).Nodup) :
    l.filter (fun q => q.id == pid)
      = (match l.find? (fun q => q.id == pid) with
         | some p => [p]
         | none => []) := by
  induction l with
  | nil => rfl
  | cons q t ih =>
    rw [List.map_cons, List.nodup_cons] at hnd
    obtain ⟨hq, hnd'⟩ := hnd
    cases hqp : (q.id == pid) with
    | true =>
      have hqe : q.id = pid := by simpa using hqp
      have hft : t.filter (fun r => r.id == pid) = [] := by
        rw [List.filter_eq_nil_iff]
        intro r hr hrp
        have hre : r.id = pid := by simpa using hrp
        exact hq (by
          rw [List.mem_map]
          exact ⟨r, hr, by rw [hre, hqe]⟩)
      simp [List.filter_cons, List.find?_cons, hqp, hft]
    | false =>
      simp only [List.filter_cons, List.find?_cons, hqp, Bool.false_eq_true, if_false]
      exact ih hnd'

theorem route_poll_lookup (db : DB) (pid : Nat)
    (hnd : (db.polls.map Poll.id).Nodup)
    (hpub : ∀ p ∈ db.polls, p.id = pid → p.is_public = true) :
    selectSingle (db.polls.filter (fun p => p.id == pid && p.is_public))
      = db.polls.find? (fun p => p.id == pid) := by
  have hcong : db.polls.filter (fun p => p.id == pid && p.is_public)
      = db.polls.filter (fun p => p.id == pid) := by
    apply List.filter_congr
    intro p hp
    cases hip : (p.id == pid) with
    | true =>
      have := hpub p hp (by simpa using hip)
      simp [this]
    | false => simp
  rw [hcong, filter_id_eq_of_find db.polls pid hnd]
  cases hf : db.polls.find? (fun p => p.id == pid) <;> rfl

theorem votes_filter_length_le_one (votes : List Vote) (pid uid : Nat)
    (hpw : votes.Pairwise (fun v w => ¬(v.poll_id = w.poll_id ∧ v.user_id = w.user_id))) :
    (votes.filter (fun v => v.poll_id == pid && v.user_id == uid)).length ≤ 1 := by
  induction votes with
  | nil => simp
  | cons v t ih =>
    rw [List.pairwise_cons] at hpw
    obtain ⟨hv, ht⟩ := hpw
    cases hvp : (v.poll_id == pid && v.user_id == uid) with
    | false => simpa [List.filter_cons, hvp] using ih ht
    | true =>
      have hft : t.filter (fun w => w.poll_id == pid && w.user_id == uid) = [] := by
        rw [List.filter_eq_nil_iff]
        intro w hw hwp
        rw [Bool.and_eq_true] at hvp hwp
        exact hv w hw
          ⟨by rw [show v.poll_id = pid by simpa using hvp.1,
              show w.poll_id = pid by simpa using hwp.1],
            by rw [show v.user_id = uid by simpa using hvp.2,
              show w.user_id = uid by simpa using hwp.2]⟩
      simp [List.filter_cons, hvp, hft]

theorem route_voted_check (db : DB) (pid uid : Nat)
    (hpw : db.votes.Pairwise (fun v w => ¬(v.poll_id = w.poll_id ∧ v.user_id = w.user_id))) :
    (selectSingle (db.votes.filter (fun v => v.poll_id == pid && v.user_id == uid))).isSome
      = db.votes.any (fun w => w.poll_id == pid && w.user_id == uid) := by
  have hle := votes_filter_length_le_one db.votes pid uid hpw
  cases hf : db.votes.filter (fun v => v.poll_id == pid && v.user_id == uid) with
  | nil =>
    rw [List.filter_eq_nil_iff] at hf
    have : db.votes.any (fun w => w.poll_id == pid && w.user_id == uid) = false := by
      rw [← Bool.not_eq_true, List.any_eq_true]
      rintro ⟨w, hw, hwp⟩
      exact hf w hw hwp
    rw [this]
    rfl
  | cons x t =>
    cases t with
    | cons y t2 =>
      exfalso
      rw [hf] at hle
      simp at hle
    | nil =>
      have hx : x ∈ db.votes.filter (fun v => v.poll_id == pid && v.user_id == uid) := by
        rw [hf]
        exact List.mem_singleton.mpr rfl
      rw [List.mem_filter] at hx
      have : db.votes.any (fun w => w.poll_id == pid && w.user_id == uid) = true :=
        List.any_eq_true.mpr ⟨x, hx.1, hx.2⟩
      rw [this]
      rfl

theorem options_coverage_iff (options : List PollOption) (pid : Nat) (oids : List Nat)
    (hndopt : (options.map PollOption.id).Nodup) (hndoids : oids.Nodup) :
    ((options.filter (fun o => o.poll_id == pid && oids.contains o.id)).length = oids.length)
      ↔ (oids.all (fun oid =>
          options.any (fun o => o.id == oid && o.poll_id == pid)) = true) := by
  set fl := options.filter (fun o => o.poll_id == pid && oids.contains o.id) with hfl
  have hsub : List.Sublist fl options := List.filter_sublist options
  have hndfl : (fl.map PollOption.id).Nodup := hndopt.sublist (hsub.map PollOption.id)
  have hsubset : fl.map PollOption.id ⊆ oids := by
    intro a ha
    rw [List.mem_map] at ha
    obtain ⟨o, ho, rfl⟩ := ha
    rw [hfl, List.mem_filter, Bool.and_eq_true] at ho
    have := ho.2.2
    rw [List.contains_iff_exists_mem_beq] at this
    obtain ⟨oid, hoid, hbeq⟩ := this
    rwa [show o.id = oid by simpa using hbeq]
  have hsp : List.Subperm (fl.map PollOption.id) oids :=
    List.subperm_of_subset hndfl hsubset
  constructor
  · intro hlen
    rw [List.all_eq_true]
    intro oid hoid
    have hlen2 : oids.length ≤ (fl.map PollOption.id).length := by
      rw [List.length_map, hlen]
    have hperm := hsp.perm_of_length_le hlen2
    have : oid ∈ fl.map PollOption.id := hperm.mem_iff.mpr hoid
    rw [List.mem_map] at this
    obtain ⟨o, ho, hoeq⟩ := this
    rw [hfl, List.mem_filter, Bool.and_eq_true] at ho
    rw [List.any_eq_true]
    exact ⟨o, ho.1, by
      rw [Bool.and_eq_true]
      exact ⟨by simpa using hoeq, ho.2.1⟩⟩
  · intro hall
    rw [List.all_eq_true] at hall
    have hsubset2 : oids ⊆ fl.map PollOption.id := by
      intro oid hoid
      have := hall oid hoid
      rw [List.any_eq_true] at this
      obtain ⟨o, ho, hp⟩ := this
      rw [Bool.and_eq_true] at hp
      rw [List.mem_map]
      refine ⟨o, ?_, by simpa using hp.1⟩
      rw [hfl, List.mem_filter, Bool.and_eq_true]
      refine ⟨ho, hp.2, ?_⟩
      apply List.elem_eq_true_of_mem
      rwa [show o.id = oid by simpa using hp.1]
    have hsp2 : List.Subperm oids (fl.map PollOption.id) :=
      List.subperm_of_subset hndoids hsubset2
    have h1 := hsp.length_le
    have h2 := hsp2.length_le
    rw [List.length_map] at h1 h2
    omega

/-! Claim C2 (amended): how the two vote-path implementations actually
relate. -/

/-- C2 (amended): the two implementations are not equivalent, and the
relation that does hold is this. Unconditionally, the stored procedure
never records a vote and never returns success, because after its option
validation it evaluates v_poll.is_multiple_choice, a column absent from
every polls schema, and the raised error is caught and returned as the
status-500 result with the database untouched. Under the route's
reachable conditions - the poll with the submitted id (if any) is public,
primary keys unique, at most one vote per (poll, user) pair, and
duplicate-free option ids - the two agree exactly on the early
rejections (poll not found, expired, already voted, invalid options),
while every request the route carries past those checks (accepted,
single-choice rejection, or failed insert) is answered by the procedure
with the caught status-500 error. -/
theorem vote_impls_divergence :
    (∀ (db : DB) (now pid uid : Nat) (oids : List Nat),
      (validate_and_record_vote db now pid uid oids).2 = db
        ∧ (validate_and_record_vote db now pid uid oids).1 ≠ ProcOutcome.ok)
    ∧ (∀ (db : DB) (now uid : Nat) (b : VoteBody),
      (db.polls.map Poll.id).Nodup →
      (db.poll_options.map PollOption.id).Nodup →
      db.votes.Pairwise (fun v w => ¬(v.poll_id = w.poll_id ∧ v.user_id = w.user_id)) →
      (∀ p ∈ db.polls, p.id = b.poll_id → p.is_public = true) →
      b.option_ids.Nodup →
      1 ≤ b.option_ids.length →
      validate_and_record_vote db now b.poll_id uid b.option_ids
        = (match (votesPOST db now (some uid) (some b)).1 with
           | .pollNotFound => (.notFound, db)
           | .pollExpired => (.expired, db)
           | .alreadyVoted => (.alreadyVoted, db)
           | .invalidOptions => (.invalidOption, db)
           | _ => (.caughtError, db))) := by
  constructor
  · intro db now pid uid oids
    unfold validate_and_record_vote
    split
    · exact ⟨rfl, by simp⟩
    · split
      · exact ⟨rfl, by simp⟩
      · split
        · exact ⟨rfl, by simp⟩
        · split
          · exact ⟨rfl, by simp⟩
          · exact ⟨rfl, by simp⟩
  · intro db now uid b hndp hndo hpw hpub hndoids hlen
    have hv : voteSchemaOk b = true := by
      unfold voteSchemaOk
      simpa using hlen
    have hD := route_poll_lookup db b.poll_id hndp hpub
    unfold votesPOST validate_and_record_vote
    simp only [hv, Bool.not_true, Bool.false_eq_true, if_false, hD]
    cases hf : db.polls.find? (fun p => p.id == b.poll_id) with
    | none => rfl
    | some poll =>
      dsimp only
      cases he : pollExpiredAt poll now with
      | true =>
        simp only [he, if_true]
      | false =>
        simp only [he, Bool.false_eq_true, if_false]
        have hB := route_voted_check db b.poll_id uid hpw
        rw [hB]
        cases hvd : db.votes.any (fun w => w.poll_id == b.poll_id && w.user_id == uid) with
        | true => rfl
        | false =>
          simp only [Bool.false_eq_true, if_false]
          have hiff := options_coverage_iff db.poll_options b.poll_id b.option_ids hndo hndoids
          cases hall : b.option_ids.all (fun oid =>
              db.poll_options.any (fun o => o.id == oid && o.poll_id == b.poll_id)) with
          | false =>
            have hne : (db.poll_options.filter
                (fun o => o.poll_id == b.poll_id && b.option_ids.contains o.id)).length
                ≠ b.option_ids.length := by
              intro hcontra
              rw [hiff] at hcontra
              rw [hall] at hcontra
              exact Bool.noConfusion hcontra
            have hbne : ((db.poll_options.filter
                (fun o => o.poll_id == b.poll_id && b.option_ids.contains o.id)).length
                != b.option_ids.length) = true := by
              rw [bne_iff_ne]
              exact hne
            simp only [hbne, if_true, hall, Bool.not_false, if_true]
          | true =>
            have heq := hiff.mpr hall
            have hbne : ((db.poll_options.filter
                (fun o => o.poll_id == b.poll_id && b.option_ids.contains o.id)).length
                != b.option_ids.length) = false := by
              rw [heq]
              simp
            simp only [hbne, Bool.false_eq_true, if_false, hall, Bool.not_true, if_false]
            cases hsc : (!poll.allow_multiple_votes && decide (1 < b.option_ids.length)) with
            | true => rfl
            | false =>
              simp only [hsc, Bool.false_eq_true, if_false]
              cases hins : insertVotes db (b.option_ids.map
                  (fun oid =>
                    { poll_id := b.poll_id, option_id := oid, user_id := uid : Vote })) with
              | none => rfl
              | some db2 => rfl

/-- C2 witness: on the well-formed fresh public-poll database the theorem
applies at a valid first vote: the route accepts it while the procedure
answers with the caught status-500 error and an untouched database. -/
theorem vote_impls_divergence_witness :
    validate_and_record_vote dbFresh 0 1 200 [10]
      = (match (votesPOST dbFresh 0 (some 200)
            (some { poll_id := 1, option_ids := [10] })).1 with
         | .pollNotFound => (.notFound, dbFresh)
         | .pollExpired => (.expired, dbFresh)
         | .alreadyVoted => (.alreadyVoted, dbFresh)
         | .invalidOptions => (.invalidOption, dbFresh)
         | _ => (.caughtError, dbFresh)) :=
  vote_impls_divergence.2 dbFresh 0 200 { poll_id := 1, option_ids := [10] }
    (by decide) (by decide) (by decide) (by decide) (by decide) (by decide)

/-! Preservation of the denormalized-counter invariant by every database
operation. -/

theorem countInv_init : CountInv DB.init :=
  ⟨fun o ho => absurd ho (List.not_mem_nil o), fun v hv => absurd hv (List.not_mem_nil v)⟩

theorem insertVoteRow_inv (db : DB) (v : Vote) (h : CountInv db)
    (hviol : violatesVoteConstraints db v = false) :
    CountInv (insertVoteRow db v) := by
  obtain ⟨hcount, hfk⟩ := h
  unfold violatesVoteConstraints at hviol
  rw [Bool.or_eq_false_iff, Bool.or_eq_false_iff] at hviol
  obtain ⟨⟨-, -⟩, hopt⟩ := hviol
  rw [Bool.not_eq_false'] at hopt
  constructor
  · intro o' ho'
    unfold insertVoteRow update_vote_counts_ins at ho' ⊢
    rw [List.mem_map] at ho'
    obtain ⟨o, ho, rfl⟩ := ho'
    cases hid : (o.id == v.option_id) with
    | true =>
      have hvo : (v.option_id == o.id) = true := by
        have : o.id = v.option_id := by simpa using hid
        simp [this]
      simp only [hid, if_true, List.filter_append, List.length_append,
        List.filter_cons, List.filter_nil, hvo, List.length_cons, List.length_nil]
      rw [hcount o ho]
      push_cast
      ring
    | false =>
      have hvo : (v.option_id == o.id) = false := by
        have hne : ¬ o.id = v.option_id := by simpa using hid
        simp only [beq_eq_false_iff_ne, ne_eq]
        exact fun hc => hne hc.symm
      simp only [hid, Bool.false_eq_true, if_false, List.filter_append,
        List.length_append, List.filter_cons, hvo, Bool.false_eq_true,
        List.filter_nil, List.length_nil]
      rw [hcount o ho]
      simp
  · intro w hw
    unfold insertVoteRow update_vote_counts_ins at hw ⊢
    rw [List.mem_append] at hw
    cases hw with
    | inl hold =>
      obtain ⟨o, ho, hoid⟩ := hfk w hold
      refine ⟨if o.id == v.option_id then { o with vote_count := o.vote_count + 1 } else o, ?_, ?_⟩
      · rw [List.mem_map]
        exact ⟨o, ho, rfl⟩
      · cases hid : (o.id == v.option_id) <;> simp [hid, hoid]
    | inr hnew =>
      rw [List.mem_singleton] at hnew
      subst hnew
      rw [List.any_eq_true] at hopt
      obtain ⟨o, ho, hoid⟩ := hopt
      refine ⟨if o.id == w.option_id then { o with vote_count := o.vote_count + 1 } else o, ?_, ?_⟩
      · rw [List.mem_map]
        exact ⟨o, ho, rfl⟩
      · cases hid : (o.id == w.option_id) <;> simp_all

theorem insertVotes_inv (rows : List Vote) : ∀ (db db2 : DB), CountInv db →
    insertVotes db rows = some db2 → CountInv db2 := by
  induction rows with
  | nil =>
    intro db db2 h hins
    unfold insertVotes at hins
    injection hins with hins
    rwa [← hins]
  | cons v vs ih =>
    intro db db2 h hins
    unfold insertVotes at hins
    cases hviol : violatesVoteConstraints db v with
    | true => simp [hviol] at hins
    | false =>
      simp only [hviol, Bool.false_eq_true, if_false] at hins
      exact ih _ _ (insertVoteRow_inv db v h hviol) hins

theorem insertOptions_inv (rows : List OptionRow) : ∀ (db db2 : DB), CountInv db →
    insertOptions db rows = some db2 → CountInv db2 := by
  induction rows with
  | nil =>
    intro db db2 h hins
    unfold insertOptions at hins
    injection hins with hins
    rwa [← hins]
  | cons r rs ih =>
    intro db db2 h hins
    unfold insertOptions at hins
    cases hdup : db.poll_options.any (fun o => o.id == r.id) with
    | true => simp [hdup] at hins
    | false =>
      simp only [hdup, Bool.false_eq_true, if_false] at hins
      refine ih _ _ ?_ hins
      obtain ⟨hcount, hfk⟩ := h
      constructor
      · intro o' ho'
        rw [List.mem_append] at ho'
        cases ho' with
        | inl hold => exact hcount o' hold
        | inr hnew =>
          rw [List.mem_singleton] at hnew
          subst hnew
          show (0 : Int) = ((db.votes.filter (fun v => v.option_id == r.id)).length : Int)
          have hnone : db.votes.filter (fun v => v.option_id == r.id) = [] := by
            rw [List.filter_eq_nil_iff]
            intro v hv hvp
            obtain ⟨o, ho, hoid⟩ := hfk v hv
            rw [← Bool.not_eq_true, List.any_eq_true] at hdup
            exact hdup ⟨o, ho, by
              rw [hoid]
              simpa using hvp⟩
          rw [hnone]
          rfl
      · intro v hv
        obtain ⟨o, ho, hoid⟩ := hfk v hv
        exact ⟨o, List.mem_append_left _ ho, hoid⟩

theorem cascade_core (options : List PollOption) (votes : List Vote) (pid : Nat)
    (dead : Vote → Bool)
    (hcount : ∀ o ∈ options,
      o.vote_count = ((votes.filter (fun v => v.option_id == o.id)).length : Int))
    (hfk : ∀ v ∈ votes, ∃ o ∈ options, o.id = v.option_id)
    (hsurv : ∀ v ∈ votes, dead v = false →
      ∀ o ∈ options, o.id = v.option_id → (o.poll_id == pid) = false) :
    (∀ o' ∈ (votes.filter dead).foldl (fun acc v => update_vote_counts_del acc v.option_id)
        (options.filter (fun o => !(o.poll_id == pid))),
      o'.vote_count = (((votes.filter (fun v => !(dead v))).filter
          (fun v => v.option_id == o'.id)).length : Int))
    ∧ (∀ v ∈ votes.filter (fun v => !(dead v)),
        ∃ o' ∈ (votes.filter dead).foldl (fun acc v => update_vote_counts_del acc v.option_id)
          (options.filter (fun o => !(o.poll_id == pid))), o'.id = v.option_id) := by
  constructor
  · intro o' ho'
    rw [foldl_del_eq_map] at ho'
    rw [List.mem_map] at ho'
    obtain ⟨o, ho, rfl⟩ := ho'
    rw [List.mem_filter] at ho
    obtain ⟨ho, -⟩ := ho
    have hsplit := length_filter_split votes (fun v => v.option_id == o.id) dead
    have h1 : ((votes.filter dead).filter
        (fun w : Vote => w.option_id == o.id)).length
        = (votes.filter (fun v => v.option_id == o.id && dead v)).length := by
      rw [List.filter_filter]
    have h2 : ((votes.filter (fun v => !(dead v))).filter
        (fun v => v.option_id == o.id)).length
        = (votes.filter (fun v => v.option_id == o.id && !(dead v))).length := by
      rw [List.filter_filter]
    show o.vote_count - _ = _
    rw [h1, h2, hcount o ho]
    omega
  · intro v hv
    rw [List.mem_filter] at hv
    obtain ⟨hv, hvd⟩ := hv
    have hvdead : dead v = false := by simpa using hvd
    obtain ⟨o, ho, hoid⟩ := hfk v hv
    have hkeep : (o.poll_id == pid) = false := hsurv v hv hvdead o ho hoid
    rw [foldl_del_eq_map]
    refine ⟨{ o with vote_count := o.vote_count
        - (((votes.filter dead).filter (fun w : Vote => w.option_id == o.id)).length : Int) },
      ?_, hoid⟩
    rw [List.mem_map]
    refine ⟨o, ?_, rfl⟩
    rw [List.mem_filter]
    exact ⟨ho, by rw [hkeep]; rfl⟩

theorem deleteOptionsCascade_inv (db : DB) (pid : Nat) (h : CountInv db) :
    CountInv (deleteOptionsCascade db pid) := by
  obtain ⟨hcount, hfk⟩ := h
  have hcore := cascade_core db.poll_options db.votes pid
    (fun v => ((db.poll_options.filter (fun o => o.poll_id == pid)).map
      (fun o => o.id)).contains v.option_id)
    hcount hfk
    (by
      intro v hv hvdead o ho hoid
      dsimp only at hvdead
      cases hop : (o.poll_id == pid) with
      | false => rfl
      | true =>
        exfalso
        have : ((db.poll_options.filter (fun o => o.poll_id == pid)).map
            (fun o => o.id)).contains v.option_id = true := by
          apply List.elem_eq_true_of_mem
          rw [List.mem_map]
          refine ⟨o, ?_, hoid⟩
          rw [List.mem_filter]
          exact ⟨ho, hop⟩
        rw [this] at hvdead
        exact Bool.noConfusion hvdead)
  exact ⟨hcore.1, hcore.2⟩

theorem deletePollCascade_inv (db : DB) (pid : Nat) (h : CountInv db) :
    CountInv (deletePollCascade db pid) := by
  obtain ⟨hcount, hfk⟩ := h
  have hcore := cascade_core db.poll_options db.votes pid
    (fun v => v.poll_id == pid || ((db.poll_options.filter (fun o => o.poll_id == pid)).map
      (fun o => o.id)).contains v.option_id)
    hcount hfk
    (by
      intro v hv hvdead o ho hoid
      dsimp only at hvdead
      rw [Bool.or_eq_false_iff] at hvdead
      cases hop : (o.poll_id == pid) with
      | false => rfl
      | true =>
        exfalso
        have : ((db.poll_options.filter (fun o => o.poll_id == pid)).map
            (fun o => o.id)).contains v.option_id = true := by
          apply List.elem_eq_true_of_mem
          rw [List.mem_map]
          refine ⟨o, ?_, hoid⟩
          rw [List.mem_filter]
          exact ⟨ho, hop⟩
        rw [this] at hvdead
        exact Bool.noConfusion hvdead.2)
  exact ⟨hcore.1, hcore.2⟩

theorem insertProfile_inv (db db' : DB) (pr : Profile) (h : CountInv db)
    (hins : insertProfile db pr = some db') : CountInv db' := by
  unfold insertProfile at hins
  cases hdup : db.profiles.any (fun q => q.id == pr.id) with
  | true => simp [hdup] at hins
  | false =>
    simp only [hdup, Bool.false_eq_true, if_false] at hins
    injection hins with hins
    rw [← hins]
    exact h

theorem insertPoll_inv (db db' : DB) (pl : Poll) (h : CountInv db)
    (hins : insertPoll db pl = some db') : CountInv db' := by
  unfold insertPoll at hins
  cases hdup : db.polls.any (fun q => q.id == pl.id) with
  | true => simp [hdup] at hins
  | false =>
    simp only [hdup, Bool.false_eq_true, if_false] at hins
    injection hins with hins
    rw [← hins]
    exact h

theorem updatePollMeta_inv (db : DB) (pid uid : Nat) (b : CreatePollBody)
    (h : CountInv db) : CountInv (updatePollMeta db pid uid b) := h

theorem votesPOST_inv (db : DB) (now : Nat) (user : Option Nat) (body : Option VoteBody)
    (h : CountInv db) : CountInv (votesPOST db now user body).2 := by
  unfold votesPOST
  cases user with
  | none => exact h
  | some uid =>
    cases body with
    | none => exact h
    | some b =>
      dsimp only
      split
      · exact h
      · split
        · exact h
        · split
          · exact h
          · split
            · exact h
            · split
              · exact h
              · split
                · exact h
                · split
                  · exact h
                  · next db2 hins => exact insertVotes_inv _ db db2 h hins

theorem proc_inv (db : DB) (now pid uid : Nat) (oids : List Nat)
    (h : CountInv db) : CountInv (validate_and_record_vote db now pid uid oids).2 := by
  unfold validate_and_record_vote
  split
  · exact h
  · split
    · exact h
    · split
      · exact h
      · split
        · exact h
        · exact h

theorem pollsPOST_inv (db : DB) (now : Nat) (user : Option AuthUser)
    (body : Option CreatePollBody) (pid : Nat) (oids : List Nat)
    (h : CountInv db) : CountInv (pollsPOST db now user body pid oids).2.1 := by
  unfold pollsPOST
  cases user with
  | none => exact h
  | some u =>
    dsimp only
    split
    · exact h
    · next db1 tr1 heq =>
      have h1 : CountInv db1 := by
        cases hpe : selectSingle (db.profiles.filter (fun q => q.id == u.id)) with
        | some prof =>
          rw [hpe] at heq
          simp only [Option.some.injEq, Prod.mk.injEq] at heq
          rw [← heq.1]
          exact h
        | none =>
          rw [hpe] at heq
          cases hipr : insertProfile db
              { id := u.id, email := u.email,
                display_name := some (u.display_name.getD (emailLocalPart u.email)) } with
          | none =>
            rw [hipr] at heq
            exact absurd heq (by simp)
          | some dbx =>
            rw [hipr] at heq
            simp only [Option.some.injEq, Prod.mk.injEq] at heq
            rw [← heq.1]
            exact insertProfile_inv db dbx _ h hipr
      cases body with
      | none => exact h1
      | some b =>
        dsimp only
        split
        · exact h1
        · split
          · exact h1
          · next db2 hip =>
            have h2 := insertPoll_inv db1 db2 _ h1 hip
            split
            · exact deletePollCascade_inv db2 pid h2
            · next db3 hio => exact insertOptions_inv _ db2 db3 h2 hio

theorem pollsPUT_inv (db : DB) (now : Nat) (user : Option Nat) (pollId : Nat)
    (body : Option CreatePollBody) (oids : List Nat)
    (h : CountInv db) : CountInv (pollsPUT db now user pollId body oids).2 := by
  unfold pollsPUT
  cases user with
  | none => exact h
  | some uid =>
    cases body with
    | none => exact h
    | some b =>
      dsimp only
      split
      · exact h
      · split
        · exact h
        · have h1 : CountInv (updatePollMeta db pollId uid b) := updatePollMeta_inv db pollId uid b h
          split
          · exact h1
          · have h2 := deleteOptionsCascade_inv (updatePollMeta db pollId uid b) pollId h1
            split
            · exact h2
            · next db3 hio => exact insertOptions_inv _ _ db3 h2 hio

theorem pollsDELETE_inv (db : DB) (user : Option Nat) (pollId : Nat)
    (h : CountInv db) : CountInv (pollsDELETE db user pollId).2 := by
  unfold pollsDELETE
  cases user with
  | none => exact h
  | some uid =>
    dsimp only
    split
    · exact h
    · exact deletePollCascade_inv db pollId h

theorem stepEvent_inv (db : DB) (e : Event) (h : CountInv db) : CountInv (stepEvent db e) := by
  cases e with
  | create now user body pid oids => exact pollsPOST_inv db now user body pid oids h
  | vote now user body => exact votesPOST_inv db now user body h
  | procVote now pid uid oids => exact proc_inv db now pid uid oids h
  | put now user pollId body oids => exact pollsPUT_inv db now user pollId body oids h
  | drop user pollId => exact pollsDELETE_inv db user pollId h

/-! Claim C4: the trigger keeps vote_count equal to the number of
referencing vote rows in every reachable database state. -/

/-- C4: in every database state reachable from the empty database through
the application's operations (poll creation, vote submission through the
route or the stored procedure, poll update, poll deletion), every
poll_options row's denormalized vote_count equals the number of vote rows
referencing that option, the counters being maintained solely by the
update_vote_counts trigger adding or subtracting exactly one per vote
insert or delete, never recomputed from the votes table; and every vote
row references an existing option row. -/
theorem vote_counts_trigger_invariant :
    ∀ (events : List Event), CountInv (runEvents events) := by
  intro events
  unfold runEvents
  suffices hstep : ∀ (es : List Event) (db : DB), CountInv db → CountInv (es.foldl stepEvent db) by
    exact hstep events DB.init countInv_init
  intro es
  induction es with
  | nil =>
    intro db h
    exact h
  | cons e t ih =>
    intro db h
    exact ih _ (stepEvent_inv db e h)

end PollApp
